import Mathlib

/-!
Shallow embedding of `src/main.py` (a single-run trading bot) and proofs
about the claims on its specification.

Conventions of the embedding:
* Python `float` money values are modelled by `ℚ`.  `round(x, 2)` is
  modelled by `round2` (round half up; Python's float `round` differs from
  this only on exact midpoints of the underlying binary floats, and no
  statement below sits on a midpoint).
* Calls into external collaborators (the brokerage API and the two
  worksheets) are the fields of an `Env` record; an operation that may
  raise an exception in Python returns an `Option`, with `none` meaning
  "the call raised".
* Stateful execution is modelled by a trace of `Event`s: submitted
  orders, audit-log appends, and ledger writes, in the order the Python
  code performs them.  A function that can die from an uncaught exception
  returns `none` for the whole run.
-/

namespace TradingBot

/-- `round(x, 2)` of Python, on exact rationals: round to the nearest
multiple of 1/100, halves up. -/
def round2 (x : ℚ) : ℚ := ((⌊x * 100 + 1/2⌋ : ℤ) : ℚ) / 100

/-- `DIVIDEND_SYMBOL = "VIG"` from `main.py`. -/
def DIVIDEND_SYMBOL : String := "VIG"

/-- `MIN_VIG_BUY = 1.00` from `main.py`. -/
def MIN_VIG_BUY : ℚ := 1

/-- One brokerage position as returned by `api.list_positions()`, with the
numeric fields already converted by `float(...)` as in
`check_and_sell_positions`. -/
structure Position where
  symbol : String
  qty : ℚ
  avg_entry_price : ℚ
  current_price : ℚ
deriving DecidableEq, Repr

/-- One open order as returned by `api.list_orders(status='open', symbols=[s])`. -/
structure Order where
  symbol : String
  side : String
deriving DecidableEq, Repr

/-- The `(order_id, success, error)` triple that `submit_order` returns. -/
structure SubmitResult where
  id : Option String
  ok : Bool
  err : String
deriving DecidableEq, Repr

/-- One row appended to the audit log by `log_trade`: symbol, side,
the notional column (empty for sells), the price column (empty for the
reinvestment buy), order id, success flag, error text.  The timestamp
column is not modelled. -/
structure OrderAttempt where
  symbol : String
  side : String
  notional : Option ℚ
  price : Option ℚ
  orderId : Option String
  success : Bool
  error : String
deriving DecidableEq, Repr

/-- One parsed screener signal, as built by `get_toppicks_with_signal`. -/
structure Pick where
  ticker : String
  price : Option ℚ
deriving DecidableEq, Repr

/-- Observable actions of a run, in program order. -/
inductive Event where
  | submitOrder (symbol : String) (side : String) (amount : ℚ)
  | logAttempt (a : OrderAttempt)
  | ledgerWrite (value : ℚ)
deriving DecidableEq, Repr

/-- The external world a run interacts with.  Each field models one
boundary call of `main.py`; `none` models the call raising an exception. -/
structure Env where
  /-- `api.list_positions()`. -/
  list_positions : Option (List Position)
  /-- `api.list_orders(status='open', symbols=[s])`, keyed by symbol. -/
  list_orders : String → Option (List Order)
  /-- `api.get_position(s)` followed by `float(position.qty)`: `some q`
  when the lookup succeeds with quantity `q`, `none` when it raises
  (treated by the code as "no position"). -/
  get_position : String → Option ℚ
  /-- `api.submit_order(..., side='sell')` keyed by symbol and quantity. -/
  submit_sell : String → ℚ → SubmitResult
  /-- `api.submit_order(..., side='buy')` keyed by symbol and notional. -/
  submit_buy : String → ℚ → SubmitResult
  /-- `float(api.get_account().buying_power)`; `none` models the account
  read raising (fatal). -/
  buying_power : Option ℚ
  /-- `log_ws.get_all_values()`: the rows of the log worksheet, among
  which the `VIG_FUNDS` sentinel row is searched. -/
  ledger_rows : List (List String)
  /-- `screener_ws.get_all_values()`: the rows of the screener worksheet. -/
  screener_rows : List (List String)

/-! ### String helpers modelling the Python string primitives -/

/-- Remove leading and trailing whitespace from a character list. -/
def trimChars (cs : List Char) : List Char :=
  ((cs.dropWhile Char.isWhitespace).reverse.dropWhile Char.isWhitespace).reverse

/-- Python `str.strip()` (ASCII whitespace). -/
def pyStrip (s : String) : String := ⟨trimChars s.data⟩

/-- `s.upper().startswith("TOP")` of Python (ASCII upper-casing). -/
def startsWithTOP (s : String) : Bool :=
  "TOP".data.isPrefixOf (s.data.map Char.toUpper)

/-- The numeric value of a nonempty all-digit character list. -/
def parseDigits (cs : List Char) : Option ℕ :=
  if cs.isEmpty then none
  else if cs.all (fun c => c.isDigit) then
    some (cs.foldl (fun n c => 10 * n + (c.toNat - 48)) 0)
  else none

/-- Python `float(s)` restricted to plain decimal literals
(optional sign, digits, optional single decimal point); `none` models the
`ValueError` that `float` raises on anything else.  Exponents, `inf` and
`nan` are not modelled — no input in the claims uses them. -/
def parseFloat (s : String) : Option ℚ :=
  let cs := trimChars s.data
  let sgn : ℚ := if cs.headD ' ' = '-' then -1 else 1
  let body := if cs.headD ' ' = '-' ∨ cs.headD ' ' = '+' then cs.tail else cs
  match body.span (fun c => !(c == '.')) with
  | (intPart, []) => (parseDigits intPart).map (fun n => sgn * n)
  | (intPart, _dot :: fracPart) =>
    if fracPart.contains '.' then none
    else if intPart.isEmpty && fracPart.isEmpty then none
    else
      match (if intPart.isEmpty then some 0 else parseDigits intPart),
            (if fracPart.isEmpty then some 0 else parseDigits fracPart) with
      | some i, some f => some (sgn * ((i : ℚ) + (f : ℚ) / (10 : ℚ) ^ fracPart.length))
      | _, _ => none

/-! ### Worksheet readers (`get_vig_funds`, `get_toppicks_with_signal`) -/

/-- `get_vig_funds(log_ws)`: scan the log rows for the first row with at
least two cells whose first cell is `"VIG_FUNDS"` and return
`float(row[1])`; any failure (no such row, or the parse raising) yields
`0.0`. -/
def get_vig_funds (rows : List (List String)) : ℚ :=
  match rows.find? (fun row => decide (2 ≤ row.length) && (row.headD "" == "VIG_FUNDS")) with
  | some row => ((row.get? 1).bind parseFloat).getD 0
  | none => 0

/-- The body of the row loop of `get_toppicks_with_signal`: given the four
column indices, read and strip the four cells (any missing cell, i.e. the
Python `IndexError`, and any `float` failure on a nonempty price cell drop
the row by the `except: continue`), then keep the row iff the `TopPick`
cell upper-cased starts with `"TOP"` and the `Bullish Signal` cell equals
`"✅"`. -/
def processRow (tIdx bIdx kIdx pIdx : ℕ) (row : List String) : Option Pick :=
  match row.get? tIdx, row.get? bIdx, row.get? kIdx, row.get? pIdx with
  | some tp, some bl, some tk, some pr =>
    let top_pick := pyStrip tp
    let bullish := pyStrip bl
    let ticker := pyStrip tk
    let price_raw := pyStrip pr
    match (if price_raw = "" then some none else (parseFloat price_raw).map some) with
    | none => none
    | some price =>
      if startsWithTOP top_pick && (bullish == "✅") then some ⟨ticker, price⟩ else none
  | _, _, _, _ => none

/-- `get_toppicks_with_signal(ws)` on the worksheet rows.  `none` models
the uncaught `IndexError` of `rows[0]` on an empty sheet; a missing
required column makes the `header.index` calls raise inside the `try`,
giving `[]`. -/
def get_toppicks_with_signal (rows : List (List String)) : Option (List Pick) :=
  match rows with
  | [] => none
  | header :: body =>
    some (match header.findIdx? (fun h => h == "TopPick"),
                header.findIdx? (fun h => h == "Bullish Signal"),
                header.findIdx? (fun h => h == "Ticker"),
                header.findIdx? (fun h => h == "Price") with
          | some tIdx, some bIdx, some kIdx, some pIdx =>
            body.filterMap (processRow tIdx bIdx kIdx pIdx)
          | _, _, _, _ => [])

/-! ### Brokerage helpers -/

/-- `has_open_buy_order(api, symbol)`: whether any open order for the
symbol has side `'buy'`; `none` models `api.list_orders` raising (the
caller does not catch this). -/
def has_open_buy_order (env : Env) (symbol : String) : Option Bool :=
  (env.list_orders symbol).map (fun orders => orders.any (fun o => o.side == "buy"))

/-- The audit-log row written for one sell attempt in
`check_and_sell_positions` (notional column empty, price column holds the
current price). -/
def sellAttemptOf (env : Env) (p : Position) : OrderAttempt :=
  { symbol := p.symbol, side := "sell", notional := none,
    price := some p.current_price,
    orderId := (env.submit_sell p.symbol p.qty).id,
    success := (env.submit_sell p.symbol p.qty).ok,
    error := (env.submit_sell p.symbol p.qty).err }

/-- `gain = (current_price - avg_entry) / avg_entry` from line 119. -/
def gain (p : Position) : ℚ := (p.current_price - p.avg_entry_price) / p.avg_entry_price

/-- The position loop of `check_and_sell_positions`, threading the
`cumulative_profits` accumulator and emitting the submit/log events in
program order. -/
def sellLoop (env : Env) (t : ℚ) : ℚ → List Position → ℚ × List Event
  | profits, [] => (profits, [])
  | profits, p :: ps =>
    if p.symbol = DIVIDEND_SYMBOL then sellLoop env t profits ps
    else if p.qty ≤ 0 then sellLoop env t profits ps
    else if t ≤ gain p then
      let r := env.submit_sell p.symbol p.qty
      let profits' := if r.ok then profits + round2 (p.qty * p.current_price) else profits
      let rest := sellLoop env t profits' ps
      (rest.1, Event.submitOrder p.symbol "sell" p.qty ::
               Event.logAttempt (sellAttemptOf env p) :: rest.2)
    else sellLoop env t profits ps

/-- `check_and_sell_positions(api, log_ws, target_profit)`: the sell scan,
the conditional VIG reinvestment, and the final `set_vig_funds` write.
Returns the persisted ledger value and the event trace; `none` models an
uncaught exception (`list_positions` or the open-order lookup raising). -/
def check_and_sell_positions (env : Env) (t : ℚ) : Option (ℚ × List Event) :=
  match env.list_positions with
  | none => none
  | some positions =>
    let res := sellLoop env t (get_vig_funds env.ledger_rows) positions
    let profits := res.1
    if MIN_VIG_BUY ≤ profits then
      match has_open_buy_order env DIVIDEND_SYMBOL with
      | none => none
      | some true =>
        some (round2 profits, res.2 ++ [Event.ledgerWrite (round2 profits)])
      | some false =>
        let r := env.submit_buy DIVIDEND_SYMBOL (round2 profits)
        let att : OrderAttempt :=
          { symbol := DIVIDEND_SYMBOL, side := "buy",
            notional := some (round2 profits), price := none,
            orderId := r.id, success := r.ok, error := r.err }
        let profits2 := if r.ok then 0 else profits
        some (round2 profits2,
              res.2 ++ [Event.submitOrder DIVIDEND_SYMBOL "buy" (round2 profits),
                        Event.logAttempt att,
                        Event.ledgerWrite (round2 profits2)])
    else
      some (round2 profits, res.2 ++ [Event.ledgerWrite (round2 profits)])

/-- The audit-log price column of an acquisition buy:
`price if price else ""` (Python truthiness: `None` and `0.0` both give
the empty cell). -/
def pyPriceCell (price : Option ℚ) : Option ℚ :=
  match price with
  | some p => if p = 0 then none else some p
  | none => none

/-- The open-order check and order submission for one screener pick that
survived the earlier skips in `main`'s loop; `none` models
`api.list_orders` raising there (uncaught). -/
def acqSubmitPhase (env : Env) (pick : Pick) (n : ℚ) : Option (List Event) :=
  match has_open_buy_order env pick.ticker with
  | none => none
  | some true => some []
  | some false =>
    let r := env.submit_buy pick.ticker n
    some [Event.submitOrder pick.ticker "buy" n,
          Event.logAttempt { symbol := pick.ticker, side := "buy",
                             notional := some n, price := pyPriceCell pick.price,
                             orderId := r.id, success := r.ok, error := r.err }]

/-- One iteration of the screener loop in `main` (lines 176–212): the
empty/VIG skip, the notional sizing and `< 1` skip, the existing-position
skip, then `acqSubmitPhase`. -/
def acqStep (env : Env) (bp : ℚ) (pick : Pick) : Option (List Event) :=
  if pick.ticker = "" ∨ pick.ticker = DIVIDEND_SYMBOL then some []
  else
    match (if bp = 0 then none else some (round2 (5/100 * bp)) : Option ℚ) with
    | none => some []
    | some n =>
      if n < 1 then some []
      else
        match env.get_position pick.ticker with
        | some q => if 0 < q then some [] else acqSubmitPhase env pick n
        | none => acqSubmitPhase env pick n

/-- The whole screener loop of `main`, in signal order. -/
def acquisitionLoop (env : Env) (bp : ℚ) : List Pick → Option (List Event)
  | [] => some []
  | pick :: rest =>
    match acqStep env bp pick with
    | none => none
    | some evs => (acquisitionLoop env bp rest).map (fun tr => evs ++ tr)

/-- `main()`: read buying power (fatal on failure), run
`check_and_sell_positions` with target 0.05, parse the screener, run the
acquisition loop.  Returns the persisted ledger value and the full event
trace of the run; `none` models the run dying from an uncaught
exception. -/
def mainRun (env : Env) : Option (ℚ × List Event) :=
  match env.buying_power with
  | none => none
  | some bp =>
    match check_and_sell_positions env (5/100) with
    | none => none
    | some res =>
      match get_toppicks_with_signal env.screener_rows with
      | none => none
      | some picks =>
        (acquisitionLoop env bp picks).map (fun evs2 => (res.1, res.2 ++ evs2))

/-! ### Derived views of a trace -/

/-- The liquidation criterion of lines 115–120: not the dividend symbol,
positive quantity, gain at least the target. -/
def sellQualifies (t : ℚ) (p : Position) : Bool :=
  !(p.symbol == DIVIDEND_SYMBOL) && decide (0 < p.qty) && decide (t ≤ gain p)

/-- The positions the loop decides to sell, in scan order. -/
def sellFilter (t : ℚ) (ps : List Position) : List Position :=
  ps.filter (sellQualifies t)

/-- The submit/log event pair one sold position produces. -/
def sellEventsOf (env : Env) (p : Position) : List Event :=
  [Event.submitOrder p.symbol "sell" p.qty, Event.logAttempt (sellAttemptOf env p)]

/-- All events of the position loop. -/
def sellEvents (env : Env) (t : ℚ) (ps : List Position) : List Event :=
  (sellFilter t ps).flatMap (sellEventsOf env)

/-- Sum of `round(qty * current_price, 2)` over the successfully submitted
sells of the scan. -/
def sellProceeds (env : Env) (t : ℚ) (ps : List Position) : ℚ :=
  ((sellFilter t ps).map (fun p =>
    if (env.submit_sell p.symbol p.qty).ok then round2 (p.qty * p.current_price) else 0)).sum

/-- The order-submission events of a given side in a trace. -/
def submitEventsFor (side : String) (tr : List Event) : List Event :=
  tr.filter (fun e => match e with
    | Event.submitOrder _ sd _ => sd == side
    | _ => false)

/-- The logged order attempts of a given side in a trace. -/
def loggedAttempts (side : String) (tr : List Event) : List OrderAttempt :=
  tr.filterMap (fun e => match e with
    | Event.logAttempt a => if a.side == side then some a else none
    | _ => none)

/-- The buy-order submissions for the dividend symbol in a trace. -/
def vigBuySubmits (tr : List Event) : List Event :=
  tr.filter (fun e => match e with
    | Event.submitOrder s sd _ => s == DIVIDEND_SYMBOL && sd == "buy"
    | _ => false)

/-- The successful logged buy attempts for the dividend symbol. -/
def successfulVigBuys (tr : List Event) : List OrderAttempt :=
  tr.filterMap (fun e => match e with
    | Event.logAttempt a =>
      if a.symbol == DIVIDEND_SYMBOL && (a.side == "buy" && a.success) then some a else none
    | _ => none)

/-- Total notional of the successful dividend-symbol buys of a trace. -/
def reinvestedNotional (tr : List Event) : ℚ :=
  ((successfulVigBuys tr).map (fun a => a.notional.getD 0)).sum

/-- All successfully submitted orders (logged attempts with
`success = true`) of a trace. -/
def successfulAttempts (tr : List Event) : List OrderAttempt :=
  tr.filterMap (fun e => match e with
    | Event.logAttempt a => if a.success then some a else none
    | _ => none)

/-- The values written to the ledger in a trace, in order. -/
def ledgerWrites (tr : List Event) : List ℚ :=
  tr.filterMap (fun e => match e with
    | Event.ledgerWrite v => some v
    | _ => none)

/-- Whether an event submits or logs an order for symbol `s`. -/
def acqEventFor (s : String) (e : Event) : Bool :=
  match e with
  | Event.submitOrder s2 _ _ => s2 == s
  | Event.logAttempt a => a.symbol == s
  | Event.ledgerWrite _ => false

/-- A rational that is an exact multiple of 1/100 (two decimal places). -/
def twoDecimal (x : ℚ) : Bool := round2 x == x

/-- The candidate-filter state of the acquisition step for symbol `s`:
either a position lookup succeeds with positive quantity, or an open buy
order for `s` exists. -/
def heldOrOpen (env : Env) (s : String) : Prop :=
  (∃ q, env.get_position s = some q ∧ 0 < q) ∨ has_open_buy_order env s = some true

/-! ### Arithmetic lemmas about `round2` -/

theorem round2_int_div (n : ℤ) : round2 ((n : ℚ) / 100) = (n : ℚ) / 100 := by
  have h : ((n : ℚ) / 100) * 100 = (n : ℚ) := by field_simp
  rw [round2, h, add_comm, Int.floor_add_int]
  norm_num

theorem round2_eq_self_iff (x : ℚ) : round2 x = x ↔ ∃ n : ℤ, x = (n : ℚ) / 100 := by
  constructor
  · intro h
    exact ⟨⌊x * 100 + 1/2⌋, h.symm⟩
  · rintro ⟨n, rfl⟩
    exact round2_int_div n

theorem round2_round2 (x : ℚ) : round2 (round2 x) = round2 x :=
  round2_int_div ⌊x * 100 + 1/2⌋

theorem round2_zero : round2 0 = 0 := by
  have h := round2_int_div 0
  simpa using h

theorem round2_add_self (a b : ℚ) (ha : round2 a = a) (hb : round2 b = b) :
    round2 (a + b) = a + b := by
  obtain ⟨n, rfl⟩ := (round2_eq_self_iff a).mp ha
  obtain ⟨m, rfl⟩ := (round2_eq_self_iff b).mp hb
  have h : (n : ℚ) / 100 + (m : ℚ) / 100 = ((n + m : ℤ) : ℚ) / 100 := by
    push_cast
    ring
  rw [h]
  exact round2_int_div (n + m)

theorem round2_nonneg (x : ℚ) (hx : 0 ≤ x) : 0 ≤ round2 x := by
  rw [round2]
  have h : (0 : ℤ) ≤ ⌊x * 100 + 1/2⌋ := by
    rw [Int.le_floor]
    push_cast
    nlinarith
  positivity

theorem sellProceeds_twoDec (env : Env) (t : ℚ) (ps : List Position) :
    round2 (sellProceeds env t ps) = sellProceeds env t ps := by
  rw [sellProceeds]
  induction sellFilter t ps with
  | nil => simpa using round2_zero
  | cons p l ih =>
    rw [List.map_cons, List.sum_cons]
    refine round2_add_self _ _ ?_ ih
    by_cases h : (env.submit_sell p.symbol p.qty).ok
    · simpa [h] using round2_round2 (p.qty * p.current_price)
    · simpa [h] using round2_zero

/-! ### Characterization of the position loop -/

theorem sellLoop_spec (env : Env) (t : ℚ) (ps : List Position) :
    ∀ c, sellLoop env t c ps = (c + sellProceeds env t ps, sellEvents env t ps) := by
  induction ps with
  | nil =>
    intro c
    simp [sellLoop, sellProceeds, sellEvents, sellFilter]
  | cons p ps ih =>
    intro c
    by_cases h1 : p.symbol = DIVIDEND_SYMBOL
    · simp [sellLoop, h1, sellProceeds, sellEvents, sellFilter, sellQualifies, ih]
    · by_cases h2 : p.qty ≤ 0
      · have hq : ¬ (0 < p.qty) := not_lt.mpr h2
        simp [sellLoop, h1, h2, hq, sellProceeds, sellEvents, sellFilter, sellQualifies, ih]
      · by_cases h3 : t ≤ gain p
        · have hq : 0 < p.qty := not_le.mp h2
          by_cases hok : (env.submit_sell p.symbol p.qty).ok
          · simp only [sellLoop, if_neg h1, if_neg h2, if_pos h3, hok, if_true, ih]
            simp [sellProceeds, sellEvents, sellFilter, sellQualifies, h1, hq, h3, hok,
              sellEventsOf]
            ring
          · simp only [sellLoop, if_neg h1, if_neg h2, if_pos h3, hok, if_false, ih]
            simp [sellProceeds, sellEvents, sellFilter, sellQualifies, h1, hq, h3, hok,
              sellEventsOf]
        · have hq : 0 < p.qty := not_le.mp h2
          simp [sellLoop, h1, h2, h3, hq, sellProceeds, sellEvents, sellFilter,
            sellQualifies, ih]

/-- The audit-log row of the reinvestment attempt sized at `round2 c`. -/
def vigAttempt (env : Env) (c : ℚ) : OrderAttempt :=
  { symbol := DIVIDEND_SYMBOL, side := "buy", notional := some (round2 c), price := none,
    orderId := (env.submit_buy DIVIDEND_SYMBOL (round2 c)).id,
    success := (env.submit_buy DIVIDEND_SYMBOL (round2 c)).ok,
    error := (env.submit_buy DIVIDEND_SYMBOL (round2 c)).err }

/-- Inversion principle for a completed `check_and_sell_positions` call:
the run falls into exactly one of the four completed branches
(below threshold / skip on open order / reinvest succeeded / reinvest
failed). -/
theorem cs_inv (env : Env) (t : ℚ) (ps : List Position) (v : ℚ) (tr : List Event)
    (hps : env.list_positions = some ps)
    (h : check_and_sell_positions env t = some (v, tr)) :
    (¬ MIN_VIG_BUY ≤ get_vig_funds env.ledger_rows + sellProceeds env t ps ∧
      v = round2 (get_vig_funds env.ledger_rows + sellProceeds env t ps) ∧
      tr = sellEvents env t ps ++ [Event.ledgerWrite v]) ∨
    (MIN_VIG_BUY ≤ get_vig_funds env.ledger_rows + sellProceeds env t ps ∧
      has_open_buy_order env DIVIDEND_SYMBOL = some true ∧
      v = round2 (get_vig_funds env.ledger_rows + sellProceeds env t ps) ∧
      tr = sellEvents env t ps ++ [Event.ledgerWrite v]) ∨
    (MIN_VIG_BUY ≤ get_vig_funds env.ledger_rows + sellProceeds env t ps ∧
      has_open_buy_order env DIVIDEND_SYMBOL = some false ∧
      tr = sellEvents env t ps ++
        [Event.submitOrder DIVIDEND_SYMBOL "buy"
           (round2 (get_vig_funds env.ledger_rows + sellProceeds env t ps)),
         Event.logAttempt (vigAttempt env (get_vig_funds env.ledger_rows + sellProceeds env t ps)),
         Event.ledgerWrite v] ∧
      (((env.submit_buy DIVIDEND_SYMBOL
           (round2 (get_vig_funds env.ledger_rows + sellProceeds env t ps))).ok = true ∧
         v = 0) ∨
       ((env.submit_buy DIVIDEND_SYMBOL
           (round2 (get_vig_funds env.ledger_rows + sellProceeds env t ps))).ok = false ∧
         v = round2 (get_vig_funds env.ledger_rows + sellProceeds env t ps)))) := by
  rw [check_and_sell_positions, hps] at h
  simp only [sellLoop_spec] at h
  by_cases hmin : MIN_VIG_BUY ≤ get_vig_funds env.ledger_rows + sellProceeds env t ps
  · rw [if_pos hmin] at h
    cases hob : has_open_buy_order env DIVIDEND_SYMBOL with
    | none => rw [hob] at h; exact absurd h (by simp)
    | some b =>
      rw [hob] at h
      cases b with
      | true =>
        simp only [Option.some.injEq, Prod.mk.injEq] at h
        exact Or.inr (Or.inl ⟨hmin, rfl, h.1.symm, by rw [← h.2, ← h.1]⟩)
      | false =>
        cases hok : (env.submit_buy DIVIDEND_SYMBOL
            (round2 (get_vig_funds env.ledger_rows + sellProceeds env t ps))).ok with
        | true =>
          simp only [hok, if_true, Option.some.injEq, Prod.mk.injEq] at h
          refine Or.inr (Or.inr ⟨hmin, rfl, ?_, Or.inl ⟨rfl, by rw [← h.1, round2_zero]⟩⟩)
          rw [← h.2, ← h.1]
          simp [vigAttempt, hok]
        | false =>
          simp only [hok, Bool.false_eq_true, if_false, Option.some.injEq, Prod.mk.injEq] at h
          refine Or.inr (Or.inr ⟨hmin, rfl, ?_, Or.inr ⟨rfl, h.1.symm⟩⟩)
          rw [← h.2, ← h.1]
          simp [vigAttempt, hok]
  · rw [if_neg hmin] at h
    simp only [Option.some.injEq, Prod.mk.injEq] at h
    exact Or.inl ⟨hmin, h.1.symm, by rw [← h.2, ← h.1]⟩

/-- Inversion principle for a completed `main` run: it decomposes into the
buying-power read, the liquidation/reinvestment phase, the screener parse
and the acquisition loop, with the trace being the concatenation. -/
theorem mainRun_inv (env : Env) (v : ℚ) (tr : List Event)
    (h : mainRun env = some (v, tr)) :
    ∃ bp evs1 picks evs2,
      env.buying_power = some bp ∧
      check_and_sell_positions env (5/100) = some (v, evs1) ∧
      get_toppicks_with_signal env.screener_rows = some picks ∧
      acquisitionLoop env bp picks = some evs2 ∧
      tr = evs1 ++ evs2 := by
  rw [mainRun] at h
  cases hbp : env.buying_power with
  | none => rw [hbp] at h; exact absurd h (by simp)
  | some bp =>
    rw [hbp] at h
    dsimp only at h
    cases hcs : check_and_sell_positions env (5/100) with
    | none => rw [hcs] at h; exact absurd h (by simp)
    | some res =>
      rw [hcs] at h
      dsimp only at h
      cases hpk : get_toppicks_with_signal env.screener_rows with
      | none => rw [hpk] at h; exact absurd h (by simp)
      | some picks =>
        rw [hpk] at h
        dsimp only at h
        cases hacq : acquisitionLoop env bp picks with
        | none => rw [hacq] at h; exact absurd h (by simp)
        | some evs2 =>
          rw [hacq] at h
          simp only [Option.map_some', Option.some.injEq, Prod.mk.injEq] at h
          refine ⟨bp, res.2, picks, evs2, rfl, ?_, rfl, hacq, h.2.symm⟩
          rw [← h.1]

/-! ### What the position-loop trace contains -/

theorem ledgerWrites_append (a b : List Event) :
    ledgerWrites (a ++ b) = ledgerWrites a ++ ledgerWrites b :=
  List.filterMap_append a b _

theorem successfulVigBuys_append (a b : List Event) :
    successfulVigBuys (a ++ b) = successfulVigBuys a ++ successfulVigBuys b :=
  List.filterMap_append a b _

theorem successfulAttempts_append (a b : List Event) :
    successfulAttempts (a ++ b) = successfulAttempts a ++ successfulAttempts b :=
  List.filterMap_append a b _

theorem sellEvents_ledgerWrites (env : Env) (t : ℚ) (ps : List Position) :
    ledgerWrites (sellEvents env t ps) = [] := by
  rw [sellEvents]
  induction sellFilter t ps with
  | nil => rfl
  | cons p l ih => simp [ledgerWrites, sellEventsOf, List.filterMap_append] at ih ⊢; exact ih

theorem sellEvents_submits (env : Env) (t : ℚ) (ps : List Position) :
    submitEventsFor "sell" (sellEvents env t ps) =
      (sellFilter t ps).map (fun p => Event.submitOrder p.symbol "sell" p.qty) := by
  rw [sellEvents]
  induction sellFilter t ps with
  | nil => rfl
  | cons p l ih =>
    simp [submitEventsFor, sellEventsOf, List.filter_append] at ih ⊢
    exact ih

theorem sellEvents_attempts (env : Env) (t : ℚ) (ps : List Position) :
    loggedAttempts "sell" (sellEvents env t ps) = (sellFilter t ps).map (sellAttemptOf env) := by
  rw [sellEvents]
  induction sellFilter t ps with
  | nil => rfl
  | cons p l ih =>
    simp [loggedAttempts, sellEventsOf, sellAttemptOf, List.filterMap_append] at ih ⊢
    exact ih

theorem sellEvents_vigBuySubmits (env : Env) (t : ℚ) (ps : List Position) :
    vigBuySubmits (sellEvents env t ps) = [] := by
  rw [sellEvents]
  induction sellFilter t ps with
  | nil => rfl
  | cons p l ih =>
    simp [vigBuySubmits, sellEventsOf, List.filter_append, sellAttemptOf] at ih ⊢
    exact ih

theorem sellEvents_successfulVigBuys (env : Env) (t : ℚ) (ps : List Position) :
    successfulVigBuys (sellEvents env t ps) = [] := by
  rw [sellEvents]
  induction sellFilter t ps with
  | nil => rfl
  | cons p l ih =>
    simp [successfulVigBuys, sellEventsOf, List.filterMap_append, sellAttemptOf] at ih ⊢
    exact ih

/-! ### What one acquisition iteration can do -/

/-- The audit-log row of an acquisition buy for `pick` at notional `n`. -/
def acqAttempt (env : Env) (pick : Pick) (n : ℚ) : OrderAttempt :=
  { symbol := pick.ticker, side := "buy", notional := some n,
    price := pyPriceCell pick.price,
    orderId := (env.submit_buy pick.ticker n).id,
    success := (env.submit_buy pick.ticker n).ok,
    error := (env.submit_buy pick.ticker n).err }

/-- One screener iteration either skips (no events) or, when every filter
passed (nonempty non-VIG ticker, no positively-held position, open-order
check returned `false`), submits one buy and logs one attempt. -/
theorem acqStep_spec (env : Env) (bp : ℚ) (pick : Pick) (evs : List Event)
    (h : acqStep env bp pick = some evs) :
    evs = [] ∨
    (pick.ticker ≠ "" ∧ pick.ticker ≠ DIVIDEND_SYMBOL ∧
     has_open_buy_order env pick.ticker = some false ∧
     (∀ q, env.get_position pick.ticker = some q → q ≤ 0) ∧
     ∃ n, evs = [Event.submitOrder pick.ticker "buy" n,
                 Event.logAttempt (acqAttempt env pick n)]) := by
  rw [acqStep] at h
  by_cases h0 : pick.ticker = "" ∨ pick.ticker = DIVIDEND_SYMBOL
  · rw [if_pos h0] at h
    exact Or.inl (Option.some.inj h).symm
  · rw [if_neg h0] at h
    push_neg at h0
    by_cases hbp0 : bp = 0
    · rw [if_pos hbp0] at h
      exact Or.inl (Option.some.inj h).symm
    · rw [if_neg hbp0] at h
      dsimp only at h
      by_cases hn : round2 (5/100 * bp) < 1
      · rw [if_pos hn] at h
        exact Or.inl (Option.some.inj h).symm
      · rw [if_neg hn] at h
        have hsub : ∀ (hq : ∀ q, env.get_position pick.ticker = some q → q ≤ 0),
            acqSubmitPhase env pick (round2 (5/100 * bp)) = some evs →
            evs = [] ∨ (pick.ticker ≠ "" ∧ pick.ticker ≠ DIVIDEND_SYMBOL ∧
              has_open_buy_order env pick.ticker = some false ∧
              (∀ q, env.get_position pick.ticker = some q → q ≤ 0) ∧
              ∃ n, evs = [Event.submitOrder pick.ticker "buy" n,
                          Event.logAttempt (acqAttempt env pick n)]) := by
          intro hq hsp
          rw [acqSubmitPhase] at hsp
          rcases Option.eq_none_or_eq_some (has_open_buy_order env pick.ticker) with hob | ⟨b, hob⟩
          · rw [hob] at hsp
            exact absurd hsp (by simp)
          · rw [hob] at hsp
            cases b with
            | true => exact Or.inl (Option.some.inj hsp).symm
            | false =>
              refine Or.inr ⟨h0.1, h0.2, hob, hq, round2 (5/100 * bp), ?_⟩
              rw [← Option.some.inj hsp]
              rfl
        rcases Option.eq_none_or_eq_some (env.get_position pick.ticker) with hgp | ⟨q, hgp⟩
        · rw [hgp] at h
          refine hsub (fun q hq => ?_) h
          rw [hgp] at hq
          cases hq
        · rw [hgp] at h
          dsimp only at h
          by_cases hqpos : 0 < q
          · rw [if_pos hqpos] at h
            exact Or.inl (Option.some.inj h).symm
          · rw [if_neg hqpos] at h
            refine hsub (fun q' hq' => ?_) h
            rw [hgp] at hq'
            rw [← Option.some.inj hq']
            exact not_lt.mp hqpos

/-- A candidate already held with positive quantity, or with an open buy
order, is skipped with no events. -/
theorem acqStep_heldOrOpen (env : Env) (bp : ℚ) (pick : Pick)
    (hs : heldOrOpen env pick.ticker) :
    acqStep env bp pick = some [] := by
  rw [acqStep]
  by_cases h0 : pick.ticker = "" ∨ pick.ticker = DIVIDEND_SYMBOL
  · rw [if_pos h0]
  · rw [if_neg h0]
    by_cases hbp0 : bp = 0
    · rw [if_pos hbp0]
    · rw [if_neg hbp0]
      dsimp only
      by_cases hn : round2 (5/100 * bp) < 1
      · rw [if_pos hn]
      · rw [if_neg hn]
        have hsub : has_open_buy_order env pick.ticker = some true →
            acqSubmitPhase env pick (round2 (5/100 * bp)) = some [] := by
          intro hob
          rw [acqSubmitPhase, hob]
        rcases hs with ⟨q, hq, hqpos⟩ | hopen
        · rw [hq]
          dsimp only
          rw [if_pos hqpos]
        · cases hgp : env.get_position pick.ticker with
          | none => exact hsub hopen
          | some q =>
            dsimp only
            by_cases hqpos : 0 < q
            · rw [if_pos hqpos]
            · rw [if_neg hqpos]
              exact hsub hopen

/-- A signal list whose candidates are all held or have open buy orders
produces an empty acquisition trace. -/
theorem acq_all_skipped (env : Env) (bp : ℚ) (picks : List Pick)
    (hs : ∀ p ∈ picks, heldOrOpen env p.ticker) :
    acquisitionLoop env bp picks = some [] := by
  induction picks with
  | nil => rfl
  | cons pick rest ih =>
    rw [acquisitionLoop, acqStep_heldOrOpen env bp pick (hs pick (by simp)),
      ih (fun p hp => hs p (List.mem_cons_of_mem _ hp))]
    rfl

/-- Decomposition of one acquisition-loop iteration. -/
theorem acqLoop_cons_inv (env : Env) (bp : ℚ) (pick : Pick) (rest : List Pick)
    (tr : List Event) (h : acquisitionLoop env bp (pick :: rest) = some tr) :
    ∃ evs tr', acqStep env bp pick = some evs ∧
      acquisitionLoop env bp rest = some tr' ∧ tr = evs ++ tr' := by
  rw [acquisitionLoop] at h
  rcases Option.eq_none_or_eq_some (acqStep env bp pick) with hstep | ⟨evs, hstep⟩
  · rw [hstep] at h
    exact absurd h (by simp)
  · rw [hstep] at h
    dsimp only at h
    rcases Option.map_eq_some'.mp h with ⟨tr', hrest, htr⟩
    exact ⟨evs, tr', hstep, hrest, htr.symm⟩

/-- The acquisition loop never writes the ledger, never submits a buy for
the dividend symbol, and never logs an attempt on the dividend symbol. -/
theorem acq_trace_pure (env : Env) (bp : ℚ) (picks : List Pick) (tr : List Event)
    (h : acquisitionLoop env bp picks = some tr) :
    ledgerWrites tr = [] ∧ vigBuySubmits tr = [] ∧ successfulVigBuys tr = [] := by
  induction picks generalizing tr with
  | nil =>
    rw [acquisitionLoop] at h
    rw [← Option.some.inj h]
    exact ⟨rfl, rfl, rfl⟩
  | cons pick rest ih =>
    obtain ⟨evs, tr', hstep, hrest, rfl⟩ := acqLoop_cons_inv env bp pick rest tr h
    obtain ⟨ih1, ih2, ih3⟩ := ih tr' hrest
    rcases acqStep_spec env bp pick evs hstep with rfl | ⟨-, h2, -, -, n, rfl⟩
    · rw [List.nil_append]
      exact ⟨ih1, ih2, ih3⟩
    · refine ⟨?_, ?_, ?_⟩
      · rw [ledgerWrites_append, ih1]
        simp [ledgerWrites]
      · rw [vigBuySubmits, List.filter_append]
        rw [vigBuySubmits] at ih2
        rw [ih2]
        simp [acqAttempt, h2]
      · rw [successfulVigBuys_append, ih3]
        simp [successfulVigBuys, acqAttempt, h2]

/-- When every open-order lookup answers, the acquisition loop completes
no matter what the position lookups and order submissions return. -/
theorem acq_total (env : Env) (bp : ℚ) (hord : ∀ s, (env.list_orders s).isSome = true)
    (picks : List Pick) : (acquisitionLoop env bp picks).isSome = true := by
  have hstep : ∀ pick, (acqStep env bp pick).isSome = true := by
    intro pick
    have hphase : ∀ n : ℚ, (acqSubmitPhase env pick n).isSome = true := by
      intro n
      obtain ⟨l, hl⟩ := Option.isSome_iff_exists.mp (hord pick.ticker)
      rw [acqSubmitPhase, has_open_buy_order, hl]
      simp only [Option.map_some']
      rcases Bool.eq_false_or_eq_true (l.any (fun o => o.side == "buy")) with hb | hb <;>
        rw [hb] <;> rfl
    rw [acqStep]
    by_cases h0 : pick.ticker = "" ∨ pick.ticker = DIVIDEND_SYMBOL
    · rw [if_pos h0]; rfl
    · rw [if_neg h0]
      by_cases hbp0 : bp = 0
      · rw [if_pos hbp0]; rfl
      · rw [if_neg hbp0]
        dsimp only
        by_cases hn : round2 (5/100 * bp) < 1
        · rw [if_pos hn]; rfl
        · rw [if_neg hn]
          rcases Option.eq_none_or_eq_some (env.get_position pick.ticker) with hgp | ⟨q, hgp⟩
          · rw [hgp]
            exact hphase _
          · rw [hgp]
            dsimp only
            by_cases hqpos : 0 < q
            · rw [if_pos hqpos]; rfl
            · rw [if_neg hqpos]
              exact hphase _
  induction picks with
  | nil => rfl
  | cons pick rest ih =>
    rw [acquisitionLoop]
    obtain ⟨evs, hevs⟩ := Option.isSome_iff_exists.mp (hstep pick)
    rw [hevs]
    dsimp only
    obtain ⟨tr, htr⟩ := Option.isSome_iff_exists.mp ih
    rw [htr]
    rfl

/-- A completed liquidation phase presupposes a successful position read. -/
theorem cs_some_listpos (env : Env) (t : ℚ) (r : ℚ × List Event)
    (h : check_and_sell_positions env t = some r) : ∃ ps, env.list_positions = some ps := by
  rcases Option.eq_none_or_eq_some env.list_positions with h0 | ⟨ps, h0⟩
  · rw [check_and_sell_positions, h0] at h
    exact absurd h (by simp)
  · exact ⟨ps, h0⟩

theorem submitEventsFor_append (side : String) (a b : List Event) :
    submitEventsFor side (a ++ b) = submitEventsFor side a ++ submitEventsFor side b :=
  List.filter_append a b

theorem loggedAttempts_append (side : String) (a b : List Event) :
    loggedAttempts side (a ++ b) = loggedAttempts side a ++ loggedAttempts side b :=
  List.filterMap_append a b _

theorem vigBuySubmits_append (a b : List Event) :
    vigBuySubmits (a ++ b) = vigBuySubmits a ++ vigBuySubmits b :=
  List.filter_append a b

/-! ### The claims -/

/-- **C2.** In the liquidation scan, exactly the positions that are not
the dividend instrument, have positive quantity and whose gain
`(currentPrice - averageEntryPrice) / averageEntryPrice` reaches the
target get one market-sell submission for the full held quantity and one
logged sell attempt, in scan order; all other positions produce neither.
(`sellQualifies` is literally that triple condition, and `sellFilter` the
sublist of qualifying positions.) -/
theorem claim_C2 (env : Env) (t : ℚ) (ps : List Position) (v : ℚ) (tr : List Event)
    (hps : env.list_positions = some ps)
    (hpos : ∀ p ∈ ps, 0 < p.avg_entry_price)
    (h : check_and_sell_positions env t = some (v, tr)) :
    submitEventsFor "sell" tr =
      (sellFilter t ps).map (fun p => Event.submitOrder p.symbol "sell" p.qty) ∧
    loggedAttempts "sell" tr = (sellFilter t ps).map (sellAttemptOf env) := by
  have htail1 : ∀ v', submitEventsFor "sell" [Event.ledgerWrite v'] = [] := by
    intro v'
    simp [submitEventsFor]
  have htail2 : ∀ v', loggedAttempts "sell" [Event.ledgerWrite v'] = [] := by
    intro v'
    simp [loggedAttempts]
  rcases cs_inv env t ps v tr hps h with ⟨-, -, rfl⟩ | ⟨-, -, -, rfl⟩ | ⟨-, -, rfl, -⟩
  · rw [submitEventsFor_append, loggedAttempts_append, sellEvents_submits,
      sellEvents_attempts, htail1, htail2]
    simp
  · rw [submitEventsFor_append, loggedAttempts_append, sellEvents_submits,
      sellEvents_attempts, htail1, htail2]
    simp
  · rw [submitEventsFor_append, loggedAttempts_append, sellEvents_submits, sellEvents_attempts]
    constructor
    · rw [show submitEventsFor "sell"
          [Event.submitOrder DIVIDEND_SYMBOL "buy"
             (round2 (get_vig_funds env.ledger_rows + sellProceeds env t ps)),
           Event.logAttempt (vigAttempt env (get_vig_funds env.ledger_rows + sellProceeds env t ps)),
           Event.ledgerWrite v] = [] by simp [submitEventsFor]]
      simp
    · rw [show loggedAttempts "sell"
          [Event.submitOrder DIVIDEND_SYMBOL "buy"
             (round2 (get_vig_funds env.ledger_rows + sellProceeds env t ps)),
           Event.logAttempt (vigAttempt env (get_vig_funds env.ledger_rows + sellProceeds env t ps)),
           Event.ledgerWrite v] = [] by simp [loggedAttempts, vigAttempt]]
      simp

/-- **C3.** In a completed liquidation/reinvestment phase, a reinvestment
buy for the dividend symbol is submitted iff the accumulated funds
(start-of-run ledger plus this run's successful sell proceeds) reach
`MIN_VIG_BUY` and the open-order check answered `false`; when an open buy
order exists the reinvestment is skipped and the persisted value is the
accumulated funds themselves (under the 2-decimal rounding every ledger
write applies), with no deduction. -/
theorem claim_C3 (env : Env) (t : ℚ) (ps : List Position) (v : ℚ) (tr : List Event)
    (hps : env.list_positions = some ps)
    (h : check_and_sell_positions env t = some (v, tr)) :
    (vigBuySubmits tr ≠ [] ↔
      (MIN_VIG_BUY ≤ get_vig_funds env.ledger_rows + sellProceeds env t ps ∧
       has_open_buy_order env DIVIDEND_SYMBOL = some false)) ∧
    (has_open_buy_order env DIVIDEND_SYMBOL = some true →
      vigBuySubmits tr = [] ∧
      v = round2 (get_vig_funds env.ledger_rows + sellProceeds env t ps)) := by
  rcases cs_inv env t ps v tr hps h with ⟨hmin, hv, rfl⟩ | ⟨hmin, hob, hv, rfl⟩ |
    ⟨hmin, hob, rfl, hcase⟩
  · have hnone : vigBuySubmits (sellEvents env t ps ++ [Event.ledgerWrite v]) = [] := by
      rw [vigBuySubmits_append, sellEvents_vigBuySubmits]
      simp [vigBuySubmits]
    refine ⟨?_, fun _ => ⟨hnone, hv⟩⟩
    rw [hnone]
    simp only [ne_eq, not_true_eq_false, false_iff, not_and]
    intro hc
    exact absurd hc hmin
  · have hnone : vigBuySubmits (sellEvents env t ps ++ [Event.ledgerWrite v]) = [] := by
      rw [vigBuySubmits_append, sellEvents_vigBuySubmits]
      simp [vigBuySubmits]
    refine ⟨?_, fun _ => ⟨hnone, hv⟩⟩
    rw [hnone]
    simp only [ne_eq, not_true_eq_false, false_iff, not_and]
    intro _ hc
    rw [hob] at hc
    exact absurd (Option.some.inj hc) (by simp)
  · have hsome : vigBuySubmits (sellEvents env t ps ++
        [Event.submitOrder DIVIDEND_SYMBOL "buy"
           (round2 (get_vig_funds env.ledger_rows + sellProceeds env t ps)),
         Event.logAttempt (vigAttempt env (get_vig_funds env.ledger_rows + sellProceeds env t ps)),
         Event.ledgerWrite v]) =
        [Event.submitOrder DIVIDEND_SYMBOL "buy"
           (round2 (get_vig_funds env.ledger_rows + sellProceeds env t ps))] := by
      rw [vigBuySubmits_append, sellEvents_vigBuySubmits]
      simp [vigBuySubmits, vigAttempt]
    refine ⟨?_, fun hc => ?_⟩
    · rw [hsome]
      simp only [ne_eq, List.cons_ne_self, not_false_eq_true, true_iff]
      exact ⟨hmin, hob⟩
    · rw [hob] at hc
      exact absurd (Option.some.inj hc) (by simp)

/-- **C5.** For a symbol that is already held with positive quantity or
already has an open buy order, a completed acquisition loop contains no
buy-order submission and no logged attempt for that symbol. -/
theorem claim_C5 (env : Env) (bp : ℚ) (picks : List Pick) (tr : List Event) (s : String)
    (h : acquisitionLoop env bp picks = some tr)
    (hs : heldOrOpen env s) :
    tr.filter (acqEventFor s) = [] := by
  induction picks generalizing tr with
  | nil =>
    rw [acquisitionLoop] at h
    rw [← Option.some.inj h]
    rfl
  | cons pick rest ih =>
    obtain ⟨evs, tr', hstep, hrest, rfl⟩ := acqLoop_cons_inv env bp pick rest tr h
    rw [List.filter_append, ih tr' hrest, List.append_nil]
    rcases acqStep_spec env bp pick evs hstep with rfl | ⟨-, -, hob, hqle, n, rfl⟩
    · rfl
    · by_cases hts : pick.ticker = s
      · subst hts
        rcases hs with ⟨q, hq, hqpos⟩ | hopen
        · exact absurd (hqle q hq) (not_le.mpr hqpos)
        · rw [hob] at hopen
          exact absurd (Option.some.inj hopen) (by simp)
      · simp [acqEventFor, acqAttempt, hts]

/-- **C10.** Every value a completed run writes to the ledger is an exact
two-decimal value: the single write is invoked with
`round(cumulative_profits, 2)`. -/
theorem claim_C10 (env : Env) (v : ℚ) (tr : List Event)
    (h : mainRun env = some (v, tr)) :
    (ledgerWrites tr).all twoDecimal = true := by
  obtain ⟨bp, evs1, picks, evs2, hbp, hcs, hpk, hacq, rfl⟩ := mainRun_inv env v tr h
  obtain ⟨ps, hps⟩ := cs_some_listpos env (5/100) _ hcs
  have hacq0 : ledgerWrites evs2 = [] := (acq_trace_pure env bp picks evs2 hacq).1
  rw [ledgerWrites_append, hacq0, List.append_nil]
  have hv : twoDecimal v = true := by
    rcases cs_inv env (5/100) ps v evs1 hps hcs with ⟨-, hv, -⟩ | ⟨-, -, hv, -⟩ |
      ⟨-, -, -, hcase⟩
    · simp [twoDecimal, hv, round2_round2]
    · simp [twoDecimal, hv, round2_round2]
    · rcases hcase with ⟨-, hv⟩ | ⟨-, hv⟩
      · simp [twoDecimal, hv, round2_zero]
      · simp [twoDecimal, hv, round2_round2]
  rcases cs_inv env (5/100) ps v evs1 hps hcs with ⟨-, -, rfl⟩ | ⟨-, -, -, rfl⟩ | ⟨-, -, rfl, -⟩
  · rw [ledgerWrites_append, sellEvents_ledgerWrites]
    simp [ledgerWrites, hv]
  · rw [ledgerWrites_append, sellEvents_ledgerWrites]
    simp [ledgerWrites, hv]
  · rw [ledgerWrites_append, sellEvents_ledgerWrites]
    simp [ledgerWrites, hv]

theorem successfulVigBuys_write (v : ℚ) : successfulVigBuys [Event.ledgerWrite v] = [] := rfl

/-- Ledger-conservation identity of one completed
`check_and_sell_positions` call, for a start value with at most two
decimal places. -/
theorem cs_ledger_eq (env : Env) (t : ℚ) (ps : List Position) (v : ℚ) (tr : List Event)
    (hps : env.list_positions = some ps)
    (hL : round2 (get_vig_funds env.ledger_rows) = get_vig_funds env.ledger_rows)
    (h : check_and_sell_positions env t = some (v, tr)) :
    v = get_vig_funds env.ledger_rows + sellProceeds env t ps - reinvestedNotional tr := by
  have hC : round2 (get_vig_funds env.ledger_rows + sellProceeds env t ps) =
      get_vig_funds env.ledger_rows + sellProceeds env t ps :=
    round2_add_self _ _ hL (sellProceeds_twoDec env t ps)
  rcases cs_inv env t ps v tr hps h with ⟨hmin, hv, rfl⟩ | ⟨hmin, hob, hv, rfl⟩ |
    ⟨hmin, hob, rfl, hcase⟩
  · rw [reinvestedNotional, successfulVigBuys_append, sellEvents_successfulVigBuys,
      successfulVigBuys_write, hv, hC]
    simp
  · rw [reinvestedNotional, successfulVigBuys_append, sellEvents_successfulVigBuys,
      successfulVigBuys_write, hv, hC]
    simp
  · rcases hcase with ⟨hok, hv⟩ | ⟨hok, hv⟩
    · rw [reinvestedNotional, successfulVigBuys_append, sellEvents_successfulVigBuys,
        show successfulVigBuys
          [Event.submitOrder DIVIDEND_SYMBOL "buy"
             (round2 (get_vig_funds env.ledger_rows + sellProceeds env t ps)),
           Event.logAttempt (vigAttempt env (get_vig_funds env.ledger_rows + sellProceeds env t ps)),
           Event.ledgerWrite v] =
          [vigAttempt env (get_vig_funds env.ledger_rows + sellProceeds env t ps)] from by
            simp [successfulVigBuys, vigAttempt, hok]]
      rw [hv]
      simp only [List.nil_append, List.map_cons, List.map_nil, List.sum_cons, List.sum_nil,
        vigAttempt, Option.getD_some]
      rw [hC]
      ring
    · rw [reinvestedNotional, successfulVigBuys_append, sellEvents_successfulVigBuys,
        show successfulVigBuys
          [Event.submitOrder DIVIDEND_SYMBOL "buy"
             (round2 (get_vig_funds env.ledger_rows + sellProceeds env t ps)),
           Event.logAttempt (vigAttempt env (get_vig_funds env.ledger_rows + sellProceeds env t ps)),
           Event.ledgerWrite v] = [] from by
            simp [successfulVigBuys, vigAttempt, hok]]
      rw [hv, hC]
      simp

/-- **C1 (amended).** For every completed run whose start-of-run ledger
value has at most two decimal places (as every value the engine itself
writes does), the persisted ledger value equals the start value plus the
successful sell proceeds minus the successfully reinvested notional. -/
theorem claim_C1_amended (env : Env) (ps : List Position) (v : ℚ) (tr : List Event)
    (hps : env.list_positions = some ps)
    (hL : round2 (get_vig_funds env.ledger_rows) = get_vig_funds env.ledger_rows)
    (h : mainRun env = some (v, tr)) :
    v = get_vig_funds env.ledger_rows + sellProceeds env (5/100) ps - reinvestedNotional tr := by
  obtain ⟨bp, evs1, picks, evs2, hbp, hcs, hpk, hacq, rfl⟩ := mainRun_inv env v tr h
  have hacqvig : successfulVigBuys evs2 = [] := (acq_trace_pure env bp picks evs2 hacq).2.2
  have hsplit : reinvestedNotional (evs1 ++ evs2) = reinvestedNotional evs1 := by
    rw [reinvestedNotional, successfulVigBuys_append, hacqvig, List.append_nil,
      reinvestedNotional]
  rw [hsplit]
  exact cs_ledger_eq env (5/100) ps v evs1 hps hL hcs

/-- Each successful sell adds a nonnegative amount when the profit target
is nonnegative and entry prices are positive. -/
theorem sellProceeds_nonneg (env : Env) (t : ℚ) (ps : List Position) (ht : 0 ≤ t)
    (hpos : ∀ p ∈ ps, 0 < p.avg_entry_price) : 0 ≤ sellProceeds env t ps := by
  rw [sellProceeds]
  refine List.sum_nonneg ?_
  intro x hx
  obtain ⟨p, hp, rfl⟩ := List.mem_map.mp hx
  have hpmem : p ∈ ps := List.mem_of_mem_filter hp
  have hq : sellQualifies t p = true := List.of_mem_filter hp
  simp only [sellQualifies, Bool.and_eq_true, decide_eq_true_eq] at hq
  by_cases hok : (env.submit_sell p.symbol p.qty).ok
  · rw [if_pos hok]
    apply round2_nonneg
    have hae := hpos p hpmem
    have hgain : 0 ≤ gain p := le_trans ht hq.2
    rw [gain] at hgain
    have hcp : 0 ≤ p.current_price := by
      rcases div_nonneg_iff.mp hgain with ⟨hnum, -⟩ | ⟨-, hden⟩
      · linarith
      · linarith
    exact mul_nonneg (le_of_lt hq.1.2) hcp
  · rw [if_neg hok]

/-- **C4 (amended).** After a successful reinvestment buy the persisted
ledger value is exactly 0; when no reinvestment succeeded the persisted
value is `round(start + proceeds, 2)` (funds unchanged by a failed buy);
and, provided the start-of-run ledger value has at most two decimal
places, the persisted value is below the start value only after a
successful reinvestment. -/
theorem claim_C4_amended (env : Env) (t : ℚ) (ps : List Position) (v : ℚ) (tr : List Event)
    (ht : 0 ≤ t)
    (hpos : ∀ p ∈ ps, 0 < p.avg_entry_price)
    (hps : env.list_positions = some ps)
    (h : check_and_sell_positions env t = some (v, tr)) :
    (successfulVigBuys tr ≠ [] → v = 0) ∧
    (successfulVigBuys tr = [] →
      v = round2 (get_vig_funds env.ledger_rows + sellProceeds env t ps)) ∧
    (round2 (get_vig_funds env.ledger_rows) = get_vig_funds env.ledger_rows →
      successfulVigBuys tr = [] → get_vig_funds env.ledger_rows ≤ v) := by
  have hthird : ∀ hL : round2 (get_vig_funds env.ledger_rows) = get_vig_funds env.ledger_rows,
      get_vig_funds env.ledger_rows ≤
        round2 (get_vig_funds env.ledger_rows + sellProceeds env t ps) := by
    intro hL
    rw [round2_add_self _ _ hL (sellProceeds_twoDec env t ps)]
    have := sellProceeds_nonneg env t ps ht hpos
    linarith
  rcases cs_inv env t ps v tr hps h with ⟨hmin, hv, rfl⟩ | ⟨hmin, hob, hv, rfl⟩ |
    ⟨hmin, hob, rfl, hcase⟩
  · have hnone : successfulVigBuys (sellEvents env t ps ++ [Event.ledgerWrite v]) = [] := by
      rw [successfulVigBuys_append, sellEvents_successfulVigBuys, successfulVigBuys_write]
      rfl
    exact ⟨fun hc => absurd hnone hc, fun _ => hv, fun hL _ => hv ▸ hthird hL⟩
  · have hnone : successfulVigBuys (sellEvents env t ps ++ [Event.ledgerWrite v]) = [] := by
      rw [successfulVigBuys_append, sellEvents_successfulVigBuys, successfulVigBuys_write]
      rfl
    exact ⟨fun hc => absurd hnone hc, fun _ => hv, fun hL _ => hv ▸ hthird hL⟩
  · rcases hcase with ⟨hok, hv⟩ | ⟨hok, hv⟩
    · have hsome : successfulVigBuys (sellEvents env t ps ++
          [Event.submitOrder DIVIDEND_SYMBOL "buy"
             (round2 (get_vig_funds env.ledger_rows + sellProceeds env t ps)),
           Event.logAttempt (vigAttempt env (get_vig_funds env.ledger_rows + sellProceeds env t ps)),
           Event.ledgerWrite v]) =
          [vigAttempt env (get_vig_funds env.ledger_rows + sellProceeds env t ps)] := by
        rw [successfulVigBuys_append, sellEvents_successfulVigBuys]
        simp [successfulVigBuys, vigAttempt, hok]
      refine ⟨fun _ => hv, fun hc => ?_, fun _ hc => ?_⟩
      · rw [hsome] at hc
        exact absurd hc (by simp)
      · rw [hsome] at hc
        exact absurd hc (by simp)
    · have hnone : successfulVigBuys (sellEvents env t ps ++
          [Event.submitOrder DIVIDEND_SYMBOL "buy"
             (round2 (get_vig_funds env.ledger_rows + sellProceeds env t ps)),
           Event.logAttempt (vigAttempt env (get_vig_funds env.ledger_rows + sellProceeds env t ps)),
           Event.ledgerWrite v]) = [] := by
        rw [successfulVigBuys_append, sellEvents_successfulVigBuys]
        simp [successfulVigBuys, vigAttempt, hok]
      exact ⟨fun hc => absurd hnone hc, fun _ => hv, fun hL _ => hv ▸ hthird hL⟩

/-- **C6 (amended).** Every completed run writes the ledger exactly once,
and that single write happens at the end of the liquidation/reinvestment
phase — after all sell and reinvestment activity but before the
acquisition step's events. -/
theorem claim_C6_amended (env : Env) (v : ℚ) (tr : List Event)
    (h : mainRun env = some (v, tr)) :
    ledgerWrites tr = [v] ∧
    ∃ t1 t2, tr = t1 ++ Event.ledgerWrite v :: t2 ∧
      ledgerWrites t1 = [] ∧ ledgerWrites t2 = [] ∧
      check_and_sell_positions env (5/100) = some (v, t1 ++ [Event.ledgerWrite v]) := by
  obtain ⟨bp, evs1, picks, evs2, hbp, hcs, hpk, hacq, rfl⟩ := mainRun_inv env v tr h
  obtain ⟨ps, hps⟩ := cs_some_listpos env (5/100) _ hcs
  have hacq0 : ledgerWrites evs2 = [] := (acq_trace_pure env bp picks evs2 hacq).1
  rcases cs_inv env (5/100) ps v evs1 hps hcs with ⟨-, -, hevs⟩ | ⟨-, -, -, hevs⟩ |
    ⟨-, -, hevs, -⟩
  · subst hevs
    refine ⟨?_, sellEvents env (5/100) ps, evs2, by simp, sellEvents_ledgerWrites env (5/100) ps,
      hacq0, hcs⟩
    rw [ledgerWrites_append, ledgerWrites_append, sellEvents_ledgerWrites, hacq0]
    rfl
  · subst hevs
    refine ⟨?_, sellEvents env (5/100) ps, evs2, by simp, sellEvents_ledgerWrites env (5/100) ps,
      hacq0, hcs⟩
    rw [ledgerWrites_append, ledgerWrites_append, sellEvents_ledgerWrites, hacq0]
    rfl
  · subst hevs
    have hpre : ledgerWrites (sellEvents env (5/100) ps ++
        [Event.submitOrder DIVIDEND_SYMBOL "buy"
           (round2 (get_vig_funds env.ledger_rows + sellProceeds env (5/100) ps)),
         Event.logAttempt (vigAttempt env
           (get_vig_funds env.ledger_rows + sellProceeds env (5/100) ps))]) = [] := by
      rw [ledgerWrites_append, sellEvents_ledgerWrites]
      rfl
    refine ⟨?_, sellEvents env (5/100) ps ++
        [Event.submitOrder DIVIDEND_SYMBOL "buy"
           (round2 (get_vig_funds env.ledger_rows + sellProceeds env (5/100) ps)),
         Event.logAttempt (vigAttempt env
           (get_vig_funds env.ledger_rows + sellProceeds env (5/100) ps))], evs2,
        by simp, hpre, hacq0, ?_⟩
    · rw [ledgerWrites_append, ledgerWrites_append, sellEvents_ledgerWrites, hacq0]
      rfl
    · rw [hcs]
      simp

/-- **C9 (amended).** Order-submission failures and position-lookup
failures never terminate the run: whenever the account-level reads
(positions, buying power, a nonempty screener sheet) and every open-order
lookup answer, the run completes, no matter what every submission and
every position lookup returns.  (An open-order lookup failure, by
contrast, is uncaught and kills the run — see the counterexample.) -/
theorem claim_C9_amended (env : Env) (ps : List Position) (bp : ℚ)
    (h1 : env.list_positions = some ps)
    (h2 : ∀ s, (env.list_orders s).isSome = true)
    (h3 : env.buying_power = some bp)
    (h4 : env.screener_rows ≠ []) :
    (mainRun env).isSome = true := by
  have hcs : (check_and_sell_positions env (5/100)).isSome = true := by
    rw [check_and_sell_positions, h1]
    dsimp only
    by_cases hmin : MIN_VIG_BUY ≤ (sellLoop env (5/100) (get_vig_funds env.ledger_rows) ps).1
    · rw [if_pos hmin]
      obtain ⟨l, hl⟩ := Option.isSome_iff_exists.mp (h2 DIVIDEND_SYMBOL)
      rw [has_open_buy_order, hl]
      simp only [Option.map_some']
      rcases Bool.eq_false_or_eq_true (l.any fun o => o.side == "buy") with hb | hb <;>
        rw [hb] <;> rfl
    · rw [if_neg hmin]
      rfl
  obtain ⟨r, hr⟩ := Option.isSome_iff_exists.mp hcs
  have hpk : ∃ picks, get_toppicks_with_signal env.screener_rows = some picks := by
    cases hscr : env.screener_rows with
    | nil => exact absurd hscr h4
    | cons hd tl => exact ⟨_, rfl⟩
  obtain ⟨picks, hpk⟩ := hpk
  obtain ⟨tr2, htr2⟩ := Option.isSome_iff_exists.mp (acq_total env bp h2 picks)
  rw [mainRun, h3]
  dsimp only
  rw [hr]
  dsimp only
  rw [hpk]
  dsimp only
  rw [htr2]
  rfl

/-- **C8 (amended).** A row passing the TopPick/Bullish filters with a
*missing* (empty) Price cell is kept as a signal with no reference price;
a row whose Price cell is nonempty but unparsable is *dropped* by the
per-row exception handler (not kept with `none`); and a header missing
any required column yields an empty signal list instead of a failed
run. -/
theorem claim_C8_amended :
    (∀ (tIdx bIdx kIdx pIdx : ℕ) (row : List String) (tp bl tk pr : String),
      row.get? tIdx = some tp → row.get? bIdx = some bl →
      row.get? kIdx = some tk → row.get? pIdx = some pr →
      pyStrip pr = "" →
      startsWithTOP (pyStrip tp) = true → pyStrip bl = "✅" →
      processRow tIdx bIdx kIdx pIdx row = some ⟨pyStrip tk, none⟩) ∧
    (∀ (tIdx bIdx kIdx pIdx : ℕ) (row : List String) (tp bl tk pr : String),
      row.get? tIdx = some tp → row.get? bIdx = some bl →
      row.get? kIdx = some tk → row.get? pIdx = some pr →
      pyStrip pr ≠ "" → parseFloat (pyStrip pr) = none →
      processRow tIdx bIdx kIdx pIdx row = none) ∧
    (∀ (header : List String) (body : List (List String)),
      (header.findIdx? (fun h => h == "TopPick") = none ∨
       header.findIdx? (fun h => h == "Bullish Signal") = none ∨
       header.findIdx? (fun h => h == "Ticker") = none ∨
       header.findIdx? (fun h => h == "Price") = none) →
      get_toppicks_with_signal (header :: body) = some []) := by
  refine ⟨?_, ?_, ?_⟩
  · intro tIdx bIdx kIdx pIdx row tp bl tk pr htp hbl htk hpr hempty hTop hBull
    rw [processRow, htp, hbl, htk, hpr]
    dsimp only
    rw [if_pos hempty]
    dsimp only
    rw [if_pos]
    rw [hTop, hBull]
    simp
  · intro tIdx bIdx kIdx pIdx row tp bl tk pr htp hbl htk hpr hne hparse
    rw [processRow, htp, hbl, htk, hpr]
    dsimp only
    rw [if_neg hne, hparse]
    rfl
  · intro header body hmiss
    rw [get_toppicks_with_signal]
    rcases Option.eq_none_or_eq_some (header.findIdx? (fun h => h == "TopPick")) with
      h1 | ⟨i1, h1⟩ <;>
      rcases Option.eq_none_or_eq_some (header.findIdx? (fun h => h == "Bullish Signal")) with
        h2 | ⟨i2, h2⟩ <;>
      rcases Option.eq_none_or_eq_some (header.findIdx? (fun h => h == "Ticker")) with
        h3 | ⟨i3, h3⟩ <;>
      rcases Option.eq_none_or_eq_some (header.findIdx? (fun h => h == "Price")) with
        h4 | ⟨i4, h4⟩ <;>
      rw [h1, h2, h3, h4] <;>
      first
        | rfl
        | (exact absurd hmiss (by simp [h1, h2, h3, h4]))

/-- **C7 (amended).** Re-running against an unchanged account snapshot
(same positions, open orders, position lookups, submission outcomes and
buying power) produces no new successful orders, provided additionally
that no position meets the liquidation criterion (otherwise the second
run simply re-sells it) and the first run's start ledger value has at
most two decimal places: the second run starts from the ledger persisted
by the first run, and every candidate of its signal list is filtered by
the existing-position/open-order checks. -/
theorem claim_C7_amended (env env' : Env) (ps : List Position) (picks' : List Pick)
    (v₁ : ℚ) (tr₁ : List Event)
    (hps : env.list_positions = some ps)
    (hL : round2 (get_vig_funds env.ledger_rows) = get_vig_funds env.ledger_rows)
    (hnosell : ∀ p ∈ ps, sellQualifies (5/100) p = false)
    (h1 : mainRun env = some (v₁, tr₁))
    (hpos2 : env'.list_positions = env.list_positions)
    (hord2 : env'.list_orders = env.list_orders)
    (hsb2 : env'.submit_buy = env.submit_buy)
    (hss2 : env'.submit_sell = env.submit_sell)
    (hgp2 : env'.get_position = env.get_position)
    (hbp2 : env'.buying_power = env.buying_power)
    (hled : get_vig_funds env'.ledger_rows = v₁)
    (hpicks : get_toppicks_with_signal env'.screener_rows = some picks')
    (hsig : ∀ p ∈ picks', heldOrOpen env' p.ticker) :
    ∃ v₂ tr₂, mainRun env' = some (v₂, tr₂) ∧ successfulAttempts tr₂ = [] := by
  have hfilter : sellFilter (5/100) ps = [] := by
    rw [sellFilter, List.filter_eq_nil_iff]
    intro p hp
    rw [hnosell p hp]
    simp
  have hP : sellProceeds env (5/100) ps = 0 := by rw [sellProceeds, hfilter]; rfl
  have hP' : sellProceeds env' (5/100) ps = 0 := by rw [sellProceeds, hfilter]; rfl
  have hE' : sellEvents env' (5/100) ps = [] := by rw [sellEvents, hfilter]; rfl
  have hob' : has_open_buy_order env' DIVIDEND_SYMBOL =
      has_open_buy_order env DIVIDEND_SYMBOL := by
    rw [has_open_buy_order, has_open_buy_order, hord2]
  obtain ⟨bp, evs1, picks, evs2, hbp, hcs, hpk, hacq, rfl⟩ := mainRun_inv env v₁ tr₁ h1
  -- assembling the second run once its liquidation phase is known
  have hfinish : ∀ (v₂ : ℚ) (evs : List Event),
      check_and_sell_positions env' (5/100) = some (v₂, evs) →
      successfulAttempts evs = [] →
      ∃ v₂ tr₂, mainRun env' = some (v₂, tr₂) ∧ successfulAttempts tr₂ = [] := by
    intro v₂ evs hcs₂ hsucc
    refine ⟨v₂, evs ++ [], ?_, ?_⟩
    · rw [mainRun, hbp2, hbp]
      dsimp only
      rw [hcs₂]
      dsimp only
      rw [hpicks]
      dsimp only
      rw [acq_all_skipped env' bp picks' hsig]
      rfl
    · rw [successfulAttempts_append, hsucc]
      rfl
  -- the liquidation phase of the second run, given the accumulated value
  have hcs₂gen : ∀ c : ℚ, get_vig_funds env'.ledger_rows = c → ¬ MIN_VIG_BUY ≤ c →
      check_and_sell_positions env' (5/100) =
        some (round2 c, [Event.ledgerWrite (round2 c)]) := by
    intro c hc hmin
    rw [check_and_sell_positions, hpos2, hps]
    dsimp only
    rw [sellLoop_spec, hc, hP', hE', add_zero]
    dsimp only
    rw [if_neg hmin]
    rfl
  rcases cs_inv env (5/100) ps v₁ evs1 hps hcs with ⟨hmin, hv, -⟩ | ⟨hmin, hob, hv, -⟩ |
    ⟨hmin, hob, -, hcase⟩
  · -- run 1 below threshold: v₁ = L < 1, run 2 identical and silent
    rw [hP, add_zero, hL] at hv
    rw [hP, add_zero] at hmin
    refine hfinish (round2 v₁) [Event.ledgerWrite (round2 v₁)]
      (hcs₂gen v₁ hled (by rw [hv]; exact hmin)) rfl
  · -- run 1 skipped on an open buy order: run 2 skips again
    rw [hP, add_zero, hL] at hv
    rw [hP, add_zero] at hmin
    have hcs₂ : check_and_sell_positions env' (5/100) =
        some (round2 v₁, [Event.ledgerWrite (round2 v₁)]) := by
      rw [check_and_sell_positions, hpos2, hps]
      dsimp only
      rw [sellLoop_spec, hled, hP', hE', add_zero]
      dsimp only
      rw [if_pos (by rw [hv]; exact hmin), hob', hob]
      rfl
    exact hfinish _ _ hcs₂ rfl
  · rw [hP, add_zero] at hmin hcase
    rcases hcase with ⟨hok, hv⟩ | ⟨hok, hv⟩
    · -- run 1 reinvested successfully: run 2 starts at 0, below threshold
      refine hfinish (round2 v₁) [Event.ledgerWrite (round2 v₁)]
        (hcs₂gen v₁ hled ?_) rfl
      rw [hv]
      norm_num [MIN_VIG_BUY]
    · -- run 1's reinvestment failed: run 2 retries and fails identically
      rw [hL] at hok
      rw [hL] at hv
      have hrv : round2 v₁ = v₁ := by rw [hv]; exact hL
      have hok' : (env'.submit_buy DIVIDEND_SYMBOL (round2 v₁)).ok = false := by
        rw [hsb2, hrv, hv]
        exact hok
      have hcs₂ : check_and_sell_positions env' (5/100) =
          some (round2 v₁,
            [Event.submitOrder DIVIDEND_SYMBOL "buy" (round2 v₁),
             Event.logAttempt (vigAttempt env' v₁),
             Event.ledgerWrite (round2 v₁)]) := by
        rw [check_and_sell_positions, hpos2, hps]
        dsimp only
        rw [sellLoop_spec, hled, hP', hE', add_zero]
        dsimp only
        rw [if_pos (by rw [hv]; exact hmin), hob', hob, hok']
        simp [vigAttempt, hok']
      refine hfinish _ _ hcs₂ ?_
      have hatt : (vigAttempt env' v₁).success = false := hok'
      simp [successfulAttempts, hatt]

/-! ### Concrete runs: counterexamples and witnesses -/

/-- An account with no positions, an externally written ledger value of
`0.006` (three decimal places), and no usable signals. -/
def cenvC1 : Env :=
  { list_positions := some []
    list_orders := fun _ => some []
    get_position := fun _ => none
    submit_sell := fun _ _ => ⟨some "sid", true, ""⟩
    submit_buy := fun _ _ => ⟨some "bid", true, ""⟩
    buying_power := some 1000
    ledger_rows := [["VIG_FUNDS", "0.006"]]
    screener_rows := [["x"]] }

/-- **C1 (counterexample).** With a start ledger of `0.006`, no sells and
no reinvestment, the completed run persists `0.01`, not
`0.006 + 0 - 0`: the final `round(·, 2)` of the single ledger write
already breaks exact conservation when the start value carries more than
two decimal places. -/
theorem claim_C1_counterexample :
    mainRun cenvC1 = some (1/100, [Event.ledgerWrite (1/100)]) ∧
    get_vig_funds cenvC1.ledger_rows = 3/500 ∧
    sellProceeds cenvC1 (5/100) [] = 0 ∧
    reinvestedNotional [Event.ledgerWrite (1/100)] = 0 ∧
    (1 : ℚ)/100 ≠ 3/500 + 0 - 0 := by
  have hL : get_vig_funds cenvC1.ledger_rows = 3/500 := by
    rw [show get_vig_funds cenvC1.ledger_rows = 1 * ((0:ℕ) + (6:ℕ) / (10:ℚ)^3) from rfl]
    norm_num
  have hr2 : round2 ((3:ℚ)/500) = 1/100 := by
    rw [round2]
    norm_num
  have hcs : check_and_sell_positions cenvC1 (5/100) =
      some (1/100, [Event.ledgerWrite (1/100)]) := by
    rw [check_and_sell_positions]
    rw [show cenvC1.list_positions = some [] from rfl]
    dsimp only
    rw [show sellLoop cenvC1 (5/100) (get_vig_funds cenvC1.ledger_rows) [] =
      (get_vig_funds cenvC1.ledger_rows, []) from rfl]
    dsimp only
    rw [hL]
    rw [if_neg (by norm_num [MIN_VIG_BUY] : ¬ MIN_VIG_BUY ≤ (3:ℚ)/500)]
    rw [hr2]
    rfl
  refine ⟨?_, hL, rfl, rfl, by norm_num⟩
  rw [mainRun]
  rw [show cenvC1.buying_power = some 1000 from rfl]
  dsimp only
  rw [hcs]
  dsimp only
  rw [show get_toppicks_with_signal cenvC1.screener_rows = some [] from rfl]
  rfl

/-- One winning position, sells and reinvests successfully, starting from
an empty ledger. -/
def wenvC1 : Env :=
  { list_positions := some [⟨"XYZ", 1, 100, 106⟩]
    list_orders := fun _ => some []
    get_position := fun _ => none
    submit_sell := fun _ _ => ⟨some "sid", true, ""⟩
    submit_buy := fun _ _ => ⟨some "bid", true, ""⟩
    buying_power := some 1000
    ledger_rows := []
    screener_rows := [["x"]] }

/-- The trace of `wenvC1`'s run: one successful sell of XYZ, one
successful reinvestment of the proceeds, one ledger write of 0. -/
def trWC1 : List Event :=
  [Event.submitOrder "XYZ" "sell" 1,
   Event.logAttempt ⟨"XYZ", "sell", none, some 106, some "sid", true, ""⟩,
   Event.submitOrder "VIG" "buy" 106,
   Event.logAttempt ⟨"VIG", "buy", some 106, none, some "bid", true, ""⟩,
   Event.ledgerWrite 0]

theorem claim_C1_witness :
    (0 : ℚ) = get_vig_funds wenvC1.ledger_rows +
      sellProceeds wenvC1 (5/100) [⟨"XYZ", 1, 100, 106⟩] - reinvestedNotional trWC1 := by
  have hf : sellFilter (5/100) [(⟨"XYZ", 1, 100, 106⟩ : Position)] = [⟨"XYZ", 1, 100, 106⟩] := by
    norm_num [sellFilter, sellQualifies, gain, DIVIDEND_SYMBOL, List.filter]
    rfl
  have hp : sellProceeds wenvC1 (5/100) [⟨"XYZ", 1, 100, 106⟩] = 106 := by
    rw [sellProceeds, hf]
    simp only [List.map_cons, List.map_nil, List.sum_cons, List.sum_nil]
    rw [if_pos (show (wenvC1.submit_sell "XYZ" 1).ok = true from rfl)]
    rw [round2]
    norm_num
  have he : sellEvents wenvC1 (5/100) [⟨"XYZ", 1, 100, 106⟩] =
      [Event.submitOrder "XYZ" "sell" 1,
       Event.logAttempt ⟨"XYZ", "sell", none, some 106, some "sid", true, ""⟩] := by
    rw [sellEvents, hf]
    rfl
  have hcs : check_and_sell_positions wenvC1 (5/100) = some (0, trWC1) := by
    rw [check_and_sell_positions]
    rw [show wenvC1.list_positions = some [⟨"XYZ", 1, 100, 106⟩] from rfl]
    dsimp only
    rw [sellLoop_spec]
    rw [show get_vig_funds wenvC1.ledger_rows = 0 from rfl]
    rw [hp, he]
    dsimp only
    rw [if_pos (by norm_num [MIN_VIG_BUY] : MIN_VIG_BUY ≤ (0:ℚ) + 106)]
    rw [show has_open_buy_order wenvC1 DIVIDEND_SYMBOL = some false from rfl]
    rw [show round2 (0 + 106 : ℚ) = 106 from by rw [round2]; norm_num]
    rw [show (wenvC1.submit_buy DIVIDEND_SYMBOL 106).ok = true from rfl]
    dsimp only
    rw [show (if true = true then (0:ℚ) else 0 + 106) = 0 from if_pos rfl]
    rw [round2_zero]
    rfl
  have h : mainRun wenvC1 = some (0, trWC1) := by
    rw [mainRun]
    rw [show wenvC1.buying_power = some 1000 from rfl]
    dsimp only
    rw [hcs]
    dsimp only
    rw [show get_toppicks_with_signal wenvC1.screener_rows = some [] from rfl]
    rfl
  exact claim_C1_amended wenvC1 [⟨"XYZ", 1, 100, 106⟩] 0 trWC1 rfl round2_zero h

/-- Three positions: a qualifying winner, the dividend symbol itself
(large gain, must still be skipped), and a position below target. -/
def wenvC2 : Env :=
  { list_positions := some [⟨"AAA", 1, 100, 106⟩, ⟨"VIG", 1, 100, 200⟩, ⟨"BBB", 1, 100, 101⟩]
    list_orders := fun _ => some []
    get_position := fun _ => none
    submit_sell := fun _ _ => ⟨some "sid", true, ""⟩
    submit_buy := fun _ _ => ⟨some "bid", true, ""⟩
    buying_power := some 1000
    ledger_rows := []
    screener_rows := [["x"]] }

/-- The liquidation/reinvestment trace of `wenvC2`. -/
def trWC2 : List Event :=
  [Event.submitOrder "AAA" "sell" 1,
   Event.logAttempt ⟨"AAA", "sell", none, some 106, some "sid", true, ""⟩,
   Event.submitOrder "VIG" "buy" 106,
   Event.logAttempt ⟨"VIG", "buy", some 106, none, some "bid", true, ""⟩,
   Event.ledgerWrite 0]

theorem claim_C2_witness :
    submitEventsFor "sell" trWC2 = [Event.submitOrder "AAA" "sell" 1] ∧
    loggedAttempts "sell" trWC2 =
      [⟨"AAA", "sell", none, some 106, some "sid", true, ""⟩] := by
  have hf : sellFilter (5/100)
      [(⟨"AAA", 1, 100, 106⟩ : Position), ⟨"VIG", 1, 100, 200⟩, ⟨"BBB", 1, 100, 101⟩] =
      [⟨"AAA", 1, 100, 106⟩] := by
    norm_num [sellFilter, sellQualifies, gain, DIVIDEND_SYMBOL, List.filter]
    rfl
  have hp : sellProceeds wenvC2 (5/100)
      [⟨"AAA", 1, 100, 106⟩, ⟨"VIG", 1, 100, 200⟩, ⟨"BBB", 1, 100, 101⟩] = 106 := by
    rw [sellProceeds, hf]
    simp only [List.map_cons, List.map_nil, List.sum_cons, List.sum_nil]
    rw [if_pos (show (wenvC2.submit_sell "AAA" 1).ok = true from rfl)]
    rw [round2]
    norm_num
  have he : sellEvents wenvC2 (5/100)
      [⟨"AAA", 1, 100, 106⟩, ⟨"VIG", 1, 100, 200⟩, ⟨"BBB", 1, 100, 101⟩] =
      [Event.submitOrder "AAA" "sell" 1,
       Event.logAttempt ⟨"AAA", "sell", none, some 106, some "sid", true, ""⟩] := by
    rw [sellEvents, hf]
    rfl
  have hcs : check_and_sell_positions wenvC2 (5/100) = some (0, trWC2) := by
    rw [check_and_sell_positions]
    rw [show wenvC2.list_positions =
      some [⟨"AAA", 1, 100, 106⟩, ⟨"VIG", 1, 100, 200⟩, ⟨"BBB", 1, 100, 101⟩] from rfl]
    dsimp only
    rw [sellLoop_spec]
    rw [show get_vig_funds wenvC2.ledger_rows = 0 from rfl]
    rw [hp, he]
    dsimp only
    rw [if_pos (by norm_num [MIN_VIG_BUY] : MIN_VIG_BUY ≤ (0:ℚ) + 106)]
    rw [show has_open_buy_order wenvC2 DIVIDEND_SYMBOL = some false from rfl]
    rw [show round2 (0 + 106 : ℚ) = 106 from by rw [round2]; norm_num]
    rw [show (wenvC2.submit_buy DIVIDEND_SYMBOL 106).ok = true from rfl]
    dsimp only
    rw [show (if true = true then (0:ℚ) else 0 + 106) = 0 from if_pos rfl]
    rw [round2_zero]
    rfl
  obtain ⟨h1, h2⟩ := claim_C2 wenvC2 (5/100)
    [⟨"AAA", 1, 100, 106⟩, ⟨"VIG", 1, 100, 200⟩, ⟨"BBB", 1, 100, 101⟩] 0 trWC2 rfl
    (by
      intro p hp
      simp only [List.mem_cons, List.not_mem_nil, or_false] at hp
      rcases hp with rfl | rfl | rfl <;> norm_num)
    hcs
  rw [h1, h2, hf]
  exact ⟨rfl, rfl⟩

/-- A qualifying winner, but an open buy order for the dividend symbol
already exists, so reinvestment is skipped. -/
def wenvC3 : Env :=
  { list_positions := some [⟨"AAA", 1, 100, 106⟩]
    list_orders := fun _ => some [⟨"VIG", "buy"⟩]
    get_position := fun _ => none
    submit_sell := fun _ _ => ⟨some "sid", true, ""⟩
    submit_buy := fun _ _ => ⟨some "bid", true, ""⟩
    buying_power := some 1000
    ledger_rows := []
    screener_rows := [["x"]] }

/-- The liquidation trace of `wenvC3`: the sell happens, the reinvestment
is skipped, the accumulated funds are persisted undeducted. -/
def trWC3 : List Event :=
  [Event.submitOrder "AAA" "sell" 1,
   Event.logAttempt ⟨"AAA", "sell", none, some 106, some "sid", true, ""⟩,
   Event.ledgerWrite 106]

theorem claim_C3_witness :
    vigBuySubmits trWC3 = [] ∧
    (106 : ℚ) = round2 (get_vig_funds wenvC3.ledger_rows +
      sellProceeds wenvC3 (5/100) [⟨"AAA", 1, 100, 106⟩]) := by
  have hf : sellFilter (5/100) [(⟨"AAA", 1, 100, 106⟩ : Position)] = [⟨"AAA", 1, 100, 106⟩] := by
    norm_num [sellFilter, sellQualifies, gain, DIVIDEND_SYMBOL, List.filter]
    rfl
  have hp : sellProceeds wenvC3 (5/100) [⟨"AAA", 1, 100, 106⟩] = 106 := by
    rw [sellProceeds, hf]
    simp only [List.map_cons, List.map_nil, List.sum_cons, List.sum_nil]
    rw [if_pos (show (wenvC3.submit_sell "AAA" 1).ok = true from rfl)]
    rw [round2]
    norm_num
  have he : sellEvents wenvC3 (5/100) [⟨"AAA", 1, 100, 106⟩] =
      [Event.submitOrder "AAA" "sell" 1,
       Event.logAttempt ⟨"AAA", "sell", none, some 106, some "sid", true, ""⟩] := by
    rw [sellEvents, hf]
    rfl
  have hcs : check_and_sell_positions wenvC3 (5/100) = some (106, trWC3) := by
    rw [check_and_sell_positions]
    rw [show wenvC3.list_positions = some [⟨"AAA", 1, 100, 106⟩] from rfl]
    dsimp only
    rw [sellLoop_spec]
    rw [show get_vig_funds wenvC3.ledger_rows = 0 from rfl]
    rw [hp, he]
    dsimp only
    rw [if_pos (by norm_num [MIN_VIG_BUY] : MIN_VIG_BUY ≤ (0:ℚ) + 106)]
    rw [show has_open_buy_order wenvC3 DIVIDEND_SYMBOL = some true from rfl]
    rw [show round2 (0 + 106 : ℚ) = 106 from by rw [round2]; norm_num]
    rfl
  obtain ⟨-, h2⟩ := claim_C3 wenvC3 (5/100) [⟨"AAA", 1, 100, 106⟩] 106 trWC3 rfl hcs
  exact h2 rfl

/-- An account with no positions and an externally written ledger value
of `0.004`. -/
def cenvC4 : Env :=
  { list_positions := some []
    list_orders := fun _ => some []
    get_position := fun _ => none
    submit_sell := fun _ _ => ⟨some "sid", true, ""⟩
    submit_buy := fun _ _ => ⟨some "bid", true, ""⟩
    buying_power := some 1000
    ledger_rows := [["VIG_FUNDS", "0.004"]]
    screener_rows := [["x"]] }

/-- **C4 (counterexample).** With a start ledger of `0.004` the run does
nothing at all — no order, no reinvestment — yet persists `0.00 < 0.004`:
the final rounding, not only a successful reinvestment, can lower the
persisted value. -/
theorem claim_C4_counterexample :
    mainRun cenvC4 = some (0, [Event.ledgerWrite 0]) ∧
    get_vig_funds cenvC4.ledger_rows = 1/250 ∧
    successfulVigBuys [Event.ledgerWrite 0] = [] ∧
    (0 : ℚ) < 1/250 := by
  have hL : get_vig_funds cenvC4.ledger_rows = 1/250 := by
    rw [show get_vig_funds cenvC4.ledger_rows = 1 * ((0:ℕ) + (4:ℕ) / (10:ℚ)^3) from rfl]
    norm_num
  have hr2 : round2 ((1:ℚ)/250) = 0 := by
    rw [round2]
    norm_num
  have hcs : check_and_sell_positions cenvC4 (5/100) = some (0, [Event.ledgerWrite 0]) := by
    rw [check_and_sell_positions]
    rw [show cenvC4.list_positions = some [] from rfl]
    dsimp only
    rw [show sellLoop cenvC4 (5/100) (get_vig_funds cenvC4.ledger_rows) [] =
      (get_vig_funds cenvC4.ledger_rows, []) from rfl]
    dsimp only
    rw [hL]
    rw [if_neg (by norm_num [MIN_VIG_BUY] : ¬ MIN_VIG_BUY ≤ (1:ℚ)/250)]
    rw [hr2]
    rfl
  refine ⟨?_, hL, rfl, by norm_num⟩
  rw [mainRun]
  rw [show cenvC4.buying_power = some 1000 from rfl]
  dsimp only
  rw [hcs]
  dsimp only
  rw [show get_toppicks_with_signal cenvC4.screener_rows = some [] from rfl]
  rfl

/-- One winning position whose sale succeeds but whose reinvestment buy
is rejected by the brokerage. -/
def wenvC4 : Env :=
  { list_positions := some [⟨"XYZ", 1, 100, 106⟩]
    list_orders := fun _ => some []
    get_position := fun _ => none
    submit_sell := fun _ _ => ⟨some "sid", true, ""⟩
    submit_buy := fun _ _ => ⟨none, false, "rejected"⟩
    buying_power := some 1000
    ledger_rows := []
    screener_rows := [["x"]] }

/-- The liquidation trace of `wenvC4`: the reinvestment attempt fails,
the accumulated funds are persisted unchanged. -/
def trWC4 : List Event :=
  [Event.submitOrder "XYZ" "sell" 1,
   Event.logAttempt ⟨"XYZ", "sell", none, some 106, some "sid", true, ""⟩,
   Event.submitOrder "VIG" "buy" 106,
   Event.logAttempt ⟨"VIG", "buy", some 106, none, none, false, "rejected"⟩,
   Event.ledgerWrite 106]

theorem claim_C4_witness :
    ((106 : ℚ) = round2 (get_vig_funds wenvC4.ledger_rows +
      sellProceeds wenvC4 (5/100) [⟨"XYZ", 1, 100, 106⟩])) ∧
    get_vig_funds wenvC4.ledger_rows ≤ 106 := by
  have hf : sellFilter (5/100) [(⟨"XYZ", 1, 100, 106⟩ : Position)] = [⟨"XYZ", 1, 100, 106⟩] := by
    norm_num [sellFilter, sellQualifies, gain, DIVIDEND_SYMBOL, List.filter]
    rfl
  have hp : sellProceeds wenvC4 (5/100) [⟨"XYZ", 1, 100, 106⟩] = 106 := by
    rw [sellProceeds, hf]
    simp only [List.map_cons, List.map_nil, List.sum_cons, List.sum_nil]
    rw [if_pos (show (wenvC4.submit_sell "XYZ" 1).ok = true from rfl)]
    rw [round2]
    norm_num
  have he : sellEvents wenvC4 (5/100) [⟨"XYZ", 1, 100, 106⟩] =
      [Event.submitOrder "XYZ" "sell" 1,
       Event.logAttempt ⟨"XYZ", "sell", none, some 106, some "sid", true, ""⟩] := by
    rw [sellEvents, hf]
    rfl
  have hcs : check_and_sell_positions wenvC4 (5/100) = some (106, trWC4) := by
    rw [check_and_sell_positions]
    rw [show wenvC4.list_positions = some [⟨"XYZ", 1, 100, 106⟩] from rfl]
    dsimp only
    rw [sellLoop_spec]
    rw [show get_vig_funds wenvC4.ledger_rows = 0 from rfl]
    rw [hp, he]
    dsimp only
    rw [if_pos (by norm_num [MIN_VIG_BUY] : MIN_VIG_BUY ≤ (0:ℚ) + 106)]
    rw [show has_open_buy_order wenvC4 DIVIDEND_SYMBOL = some false from rfl]
    rw [show round2 (0 + 106 : ℚ) = 106 from by rw [round2]; norm_num]
    rw [show (wenvC4.submit_buy DIVIDEND_SYMBOL 106).ok = false from rfl]
    dsimp only
    rw [show (if false = true then (0:ℚ) else 0 + 106) = 0 + 106 from if_neg (by simp)]
    rw [show round2 (0 + 106 : ℚ) = 106 from by rw [round2]; norm_num]
    rfl
  obtain ⟨-, h2, h3⟩ := claim_C4_amended wenvC4 (5/100) [⟨"XYZ", 1, 100, 106⟩] 106 trWC4
    (by norm_num)
    (by
      intro p hp
      simp only [List.mem_cons, List.not_mem_nil, or_false] at hp
      rcases hp with rfl <;> norm_num)
    rfl hcs
  exact ⟨h2 rfl, h3 round2_zero rfl⟩

/-- An account already holding 3 shares of `HELD`; `NEW` is a fresh
candidate. -/
def wenvC5 : Env :=
  { list_positions := some []
    list_orders := fun _ => some []
    get_position := fun s => if s = "HELD" then some 3 else none
    submit_sell := fun _ _ => ⟨some "sid", true, ""⟩
    submit_buy := fun _ _ => ⟨some "bid", true, ""⟩
    buying_power := some 1000
    ledger_rows := []
    screener_rows := [["x"]] }

/-- The acquisition trace of `wenvC5` on signals `HELD`, `NEW`: only
`NEW` is bought. -/
def trWC5 : List Event :=
  [Event.submitOrder "NEW" "buy" 50,
   Event.logAttempt ⟨"NEW", "buy", some 50, none, some "bid", true, ""⟩]

theorem claim_C5_witness : trWC5.filter (acqEventFor "HELD") = [] := by
  have hn : round2 (5/100 * 1000 : ℚ) = 50 := by
    rw [round2]
    norm_num
  have hstep2 : acqStep wenvC5 1000 ⟨"NEW", none⟩ = some trWC5 := by
    rw [acqStep]
    rw [if_neg (by simp [DIVIDEND_SYMBOL] :
      ¬ (Pick.ticker ⟨"NEW", none⟩ = "" ∨ Pick.ticker ⟨"NEW", none⟩ = DIVIDEND_SYMBOL))]
    rw [if_neg (by norm_num : ¬ (1000:ℚ) = 0)]
    dsimp only
    rw [hn]
    rw [if_neg (by norm_num : ¬ (50:ℚ) < 1)]
    rw [show wenvC5.get_position "NEW" = none from rfl]
    rw [acqSubmitPhase]
    rw [show has_open_buy_order wenvC5 "NEW" = some false from rfl]
    rfl
  have hloop : acquisitionLoop wenvC5 1000 [⟨"HELD", none⟩, ⟨"NEW", none⟩] = some trWC5 := by
    rw [acquisitionLoop,
      acqStep_heldOrOpen wenvC5 1000 ⟨"HELD", none⟩ (Or.inl ⟨3, rfl, by norm_num⟩)]
    dsimp only
    rw [acquisitionLoop, hstep2]
    rfl
  exact claim_C5 wenvC5 1000 [⟨"HELD", none⟩, ⟨"NEW", none⟩] trWC5 "HELD" hloop
    (Or.inl ⟨3, rfl, by norm_num⟩)

/-- No positions, empty ledger, one eligible screener signal `ABC` with
an empty price cell. -/
def cenvC6 : Env :=
  { list_positions := some []
    list_orders := fun _ => some []
    get_position := fun _ => none
    submit_sell := fun _ _ => ⟨some "sid", true, ""⟩
    submit_buy := fun _ _ => ⟨some "bid", true, ""⟩
    buying_power := some 1000
    ledger_rows := []
    screener_rows := [["TopPick", "Bullish Signal", "Ticker", "Price"], ["TOP", "✅", "ABC", ""]] }

/-- The full trace of `cenvC6`'s run: the ledger write comes *first*,
then the acquisition submits a buy. -/
def trC6 : List Event :=
  [Event.ledgerWrite 0,
   Event.submitOrder "ABC" "buy" 50,
   Event.logAttempt ⟨"ABC", "buy", some 50, none, some "bid", true, ""⟩]

/-- **C6 (counterexample).** The ledger is written at the end of
`check_and_sell_positions`, which `main` calls *before* the acquisition
loop: in this completed run an order submission (index 1) strictly
follows the single ledger write (index 0), so the write is not "at the
very end of the run, only after the acquisition step". -/
theorem claim_C6_counterexample :
    mainRun cenvC6 = some (0, trC6) ∧
    trC6.get? 0 = some (Event.ledgerWrite 0) ∧
    trC6.get? 1 = some (Event.submitOrder "ABC" "buy" 50) := by
  have hn : round2 (5/100 * 1000 : ℚ) = 50 := by
    rw [round2]
    norm_num
  have hcs : check_and_sell_positions cenvC6 (5/100) = some (0, [Event.ledgerWrite 0]) := by
    rw [show check_and_sell_positions cenvC6 (5/100) =
      some (round2 0, [Event.ledgerWrite (round2 0)]) from rfl]
    rw [round2_zero]
  have hstep : acqStep cenvC6 1000 ⟨"ABC", none⟩ =
      some [Event.submitOrder "ABC" "buy" 50,
            Event.logAttempt ⟨"ABC", "buy", some 50, none, some "bid", true, ""⟩] := by
    rw [acqStep]
    rw [if_neg (by simp [DIVIDEND_SYMBOL] :
      ¬ (Pick.ticker ⟨"ABC", none⟩ = "" ∨ Pick.ticker ⟨"ABC", none⟩ = DIVIDEND_SYMBOL))]
    rw [if_neg (by norm_num : ¬ (1000:ℚ) = 0)]
    dsimp only
    rw [hn]
    rw [if_neg (by norm_num : ¬ (50:ℚ) < 1)]
    rw [show cenvC6.get_position "ABC" = none from rfl]
    rw [acqSubmitPhase]
    rw [show has_open_buy_order cenvC6 "ABC" = some false from rfl]
    rfl
  refine ⟨?_, rfl, rfl⟩
  rw [mainRun]
  rw [show cenvC6.buying_power = some 1000 from rfl]
  dsimp only
  rw [hcs]
  dsimp only
  rw [show get_toppicks_with_signal cenvC6.screener_rows = some [⟨"ABC", none⟩] from rfl]
  dsimp only
  rw [acquisitionLoop, hstep]
  dsimp only
  rw [acquisitionLoop]
  rfl

/-- A run that does nothing: no positions, empty ledger, no usable
signals. -/
def wenvC6 : Env :=
  { list_positions := some []
    list_orders := fun _ => some []
    get_position := fun _ => none
    submit_sell := fun _ _ => ⟨some "sid", true, ""⟩
    submit_buy := fun _ _ => ⟨some "bid", true, ""⟩
    buying_power := some 1000
    ledger_rows := []
    screener_rows := [["x"]] }

theorem claim_C6_witness : ledgerWrites [Event.ledgerWrite 0] = [0] := by
  have h : mainRun wenvC6 = some (0, [Event.ledgerWrite 0]) := by
    rw [show mainRun wenvC6 = some (round2 0, [Event.ledgerWrite (round2 0)]) from rfl]
    rw [round2_zero]
  exact (claim_C6_amended wenvC6 0 [Event.ledgerWrite 0] h).1

/-- First run of the C7 counterexample: one winning position, empty
ledger, no signals. -/
def cenvC7a : Env :=
  { list_positions := some [⟨"XYZ", 1, 100, 106⟩]
    list_orders := fun _ => some []
    get_position := fun _ => none
    submit_sell := fun _ _ => ⟨some "sid", true, ""⟩
    submit_buy := fun _ _ => ⟨some "bid", true, ""⟩
    buying_power := some 1000
    ledger_rows := []
    screener_rows := [["x"]] }

/-- Second run of the C7 counterexample: identical snapshot, ledger as
persisted by the first run (0). -/
def cenvC7b : Env :=
  { list_positions := some [⟨"XYZ", 1, 100, 106⟩]
    list_orders := fun _ => some []
    get_position := fun _ => none
    submit_sell := fun _ _ => ⟨some "sid", true, ""⟩
    submit_buy := fun _ _ => ⟨some "bid", true, ""⟩
    buying_power := some 1000
    ledger_rows := [["VIG_FUNDS", "0"]]
    screener_rows := [["x"]] }

/-- The trace both C7 runs produce: a successful sell and a successful
reinvestment. -/
def trC7 : List Event :=
  [Event.submitOrder "XYZ" "sell" 1,
   Event.logAttempt ⟨"XYZ", "sell", none, some 106, some "sid", true, ""⟩,
   Event.submitOrder "VIG" "buy" 106,
   Event.logAttempt ⟨"VIG", "buy", some 106, none, some "bid", true, ""⟩,
   Event.ledgerWrite 0]

/-- **C7 (counterexample).** Re-running against the unchanged snapshot
with an empty signal list is *not* order-free: the position still meets
the profit criterion, so the second run re-sells it and re-invests —
two new successful orders, unfiltered by any existing-position or
open-order check. -/
theorem claim_C7_counterexample :
    mainRun cenvC7a = some (0, trC7) ∧
    get_vig_funds cenvC7b.ledger_rows = 0 ∧
    mainRun cenvC7b = some (0, trC7) ∧
    (successfulAttempts trC7).length = 2 := by
  have hf : sellFilter (5/100) [(⟨"XYZ", 1, 100, 106⟩ : Position)] = [⟨"XYZ", 1, 100, 106⟩] := by
    norm_num [sellFilter, sellQualifies, gain, DIVIDEND_SYMBOL, List.filter]
    rfl
  have hL2 : get_vig_funds cenvC7b.ledger_rows = 0 := by
    rw [show get_vig_funds cenvC7b.ledger_rows = (1:ℚ) * ((0:ℕ):ℚ) from rfl]
    norm_num
  have hrun : ∀ env : Env, env = cenvC7a ∨ env = cenvC7b →
      get_vig_funds env.ledger_rows = 0 → mainRun env = some (0, trC7) := by
    intro env henv hL
    have hps : env.list_positions = some [⟨"XYZ", 1, 100, 106⟩] := by
      rcases henv with rfl | rfl <;> rfl
    have hsell : env.submit_sell "XYZ" 1 = ⟨some "sid", true, ""⟩ := by
      rcases henv with rfl | rfl <;> rfl
    have hbuy : (env.submit_buy DIVIDEND_SYMBOL 106) = ⟨some "bid", true, ""⟩ := by
      rcases henv with rfl | rfl <;> rfl
    have hp : sellProceeds env (5/100) [⟨"XYZ", 1, 100, 106⟩] = 106 := by
      rw [sellProceeds, hf]
      simp only [List.map_cons, List.map_nil, List.sum_cons, List.sum_nil]
      rw [if_pos (show (env.submit_sell "XYZ" 1).ok = true from by rw [hsell])]
      rw [round2]
      norm_num
    have he : sellEvents env (5/100) [⟨"XYZ", 1, 100, 106⟩] =
        [Event.submitOrder "XYZ" "sell" 1,
         Event.logAttempt ⟨"XYZ", "sell", none, some 106, some "sid", true, ""⟩] := by
      rw [sellEvents, hf]
      rcases henv with rfl | rfl <;> rfl
    have hcs : check_and_sell_positions env (5/100) = some (0, trC7) := by
      rw [check_and_sell_positions, hps]
      dsimp only
      rw [sellLoop_spec, hL, hp, he]
      dsimp only
      rw [if_pos (by norm_num [MIN_VIG_BUY] : MIN_VIG_BUY ≤ (0:ℚ) + 106)]
      rw [show has_open_buy_order env DIVIDEND_SYMBOL = some false from by
        rcases henv with rfl | rfl <;> rfl]
      rw [show round2 (0 + 106 : ℚ) = 106 from by rw [round2]; norm_num]
      rw [show (env.submit_buy DIVIDEND_SYMBOL 106).ok = true from by rw [hbuy]]
      dsimp only
      rw [show (if true = true then (0:ℚ) else 0 + 106) = 0 from if_pos rfl]
      rw [round2_zero]
      rw [show (env.submit_buy DIVIDEND_SYMBOL 106).id = some "bid" from by rw [hbuy]]
      rw [show (env.submit_buy DIVIDEND_SYMBOL 106).err = "" from by rw [hbuy]]
      rfl
    rw [mainRun]
    rw [show env.buying_power = some 1000 from by rcases henv with rfl | rfl <;> rfl]
    dsimp only
    rw [hcs]
    dsimp only
    rw [show get_toppicks_with_signal env.screener_rows = some [] from by
      rcases henv with rfl | rfl <;> rfl]
    rfl
  exact ⟨hrun cenvC7a (Or.inl rfl) rfl, hL2, hrun cenvC7b (Or.inr rfl) hL2, rfl⟩

/-- First run of the C7 witness: nothing to do at all. -/
def wenvC7a : Env :=
  { list_positions := some []
    list_orders := fun _ => some []
    get_position := fun _ => none
    submit_sell := fun _ _ => ⟨some "sid", true, ""⟩
    submit_buy := fun _ _ => ⟨some "bid", true, ""⟩
    buying_power := some 1000
    ledger_rows := []
    screener_rows := [["x"]] }

/-- Second run of the C7 witness, starting from the ledger the first run
persisted (0). -/
def wenvC7b : Env :=
  { list_positions := some []
    list_orders := fun _ => some []
    get_position := fun _ => none
    submit_sell := fun _ _ => ⟨some "sid", true, ""⟩
    submit_buy := fun _ _ => ⟨some "bid", true, ""⟩
    buying_power := some 1000
    ledger_rows := [["VIG_FUNDS", "0"]]
    screener_rows := [["x"]] }

theorem claim_C7_witness : (mainRun wenvC7b).isSome = true := by
  have h1 : mainRun wenvC7a = some (0, [Event.ledgerWrite 0]) := by
    rw [show mainRun wenvC7a = some (round2 0, [Event.ledgerWrite (round2 0)]) from rfl]
    rw [round2_zero]
  have hled : get_vig_funds wenvC7b.ledger_rows = 0 := by
    rw [show get_vig_funds wenvC7b.ledger_rows = (1:ℚ) * ((0:ℕ):ℚ) from rfl]
    norm_num
  obtain ⟨v₂, tr₂, h₂, -⟩ := claim_C7_amended wenvC7a wenvC7b [] [] 0 [Event.ledgerWrite 0]
    rfl round2_zero (fun p hp => absurd hp (List.not_mem_nil p)) h1
    rfl rfl rfl rfl rfl rfl hled rfl (fun p hp => absurd hp (List.not_mem_nil p))
  rw [h₂]
  rfl

/-- A screener table whose data row passes both filters but has an
unparsable price cell. -/
def crowsC8 : List (List String) :=
  [["TopPick", "Bullish Signal", "Ticker", "Price"], ["TOP", "✅", "BAD", "abc"]]

/-- **C8 (counterexample).** The row passes the TopPick and Bullish
filters, its price cell `"abc"` is nonempty and unparsable — and the
parsed signal list is *empty*: the `float` failure drops the whole row
via the per-row exception handler, instead of yielding a signal with
`referencePrice = none` as the claim states. -/
theorem claim_C8_counterexample :
    get_toppicks_with_signal crowsC8 = some [] ∧
    startsWithTOP (pyStrip "TOP") = true ∧
    pyStrip "✅" = "✅" ∧
    pyStrip "abc" ≠ "" ∧
    parseFloat "abc" = none := by
  exact ⟨rfl, rfl, rfl, by decide, rfl⟩

theorem claim_C8_witness :
    processRow 0 1 2 3 ["TOP", "✅", "ABC", ""] = some ⟨"ABC", none⟩ ∧
    processRow 0 1 2 3 ["TOP", "✅", "ABC", "abc"] = none ∧
    get_toppicks_with_signal [["nope"]] = some [] := by
  refine ⟨?_, ?_, ?_⟩
  · exact claim_C8_amended.1 0 1 2 3 ["TOP", "✅", "ABC", ""] "TOP" "✅" "ABC" ""
      rfl rfl rfl rfl rfl rfl rfl
  · exact claim_C8_amended.2.1 0 1 2 3 ["TOP", "✅", "ABC", "abc"] "TOP" "✅" "ABC" "abc"
      rfl rfl rfl rfl (by decide) rfl
  · exact claim_C8_amended.2.2 ["nope"] [] (Or.inl rfl)

/-- A run whose single candidate's open-order lookup raises. -/
def cenvC9bad : Env :=
  { list_positions := some []
    list_orders := fun _ => none
    get_position := fun _ => none
    submit_sell := fun _ _ => ⟨some "sid", true, ""⟩
    submit_buy := fun _ _ => ⟨some "bid", true, ""⟩
    buying_power := some 1000
    ledger_rows := []
    screener_rows := [["TopPick", "Bullish Signal", "Ticker", "Price"], ["TOP", "✅", "ABC", ""]] }

/-- The same run with the open-order lookup answering. -/
def cenvC9ok : Env :=
  { list_positions := some []
    list_orders := fun _ => some []
    get_position := fun _ => none
    submit_sell := fun _ _ => ⟨some "sid", true, ""⟩
    submit_buy := fun _ _ => ⟨some "bid", true, ""⟩
    buying_power := some 1000
    ledger_rows := []
    screener_rows := [["TopPick", "Bullish Signal", "Ticker", "Price"], ["TOP", "✅", "ABC", ""]] }

/-- The trace of `cenvC9ok`'s completed run. -/
def trC9 : List Event :=
  [Event.ledgerWrite 0,
   Event.submitOrder "ABC" "buy" 50,
   Event.logAttempt ⟨"ABC", "buy", some 50, none, some "bid", true, ""⟩]

/-- **C9 (counterexample).** The open-order lookup for candidate `ABC`
raising is *not* caught: the whole run dies (`none`), where the claim
says it degrades to a logged failure or skip.  The identical environment
whose lookup answers completes normally. -/
theorem claim_C9_counterexample :
    mainRun cenvC9bad = none ∧
    mainRun cenvC9ok = some (0, trC9) := by
  have hn : round2 (5/100 * 1000 : ℚ) = 50 := by
    rw [round2]
    norm_num
  constructor
  · have hstep : acqStep cenvC9bad 1000 ⟨"ABC", none⟩ = none := by
      rw [acqStep]
      rw [if_neg (by simp [DIVIDEND_SYMBOL] :
        ¬ (Pick.ticker ⟨"ABC", none⟩ = "" ∨ Pick.ticker ⟨"ABC", none⟩ = DIVIDEND_SYMBOL))]
      rw [if_neg (by norm_num : ¬ (1000:ℚ) = 0)]
      dsimp only
      rw [hn]
      rw [if_neg (by norm_num : ¬ (50:ℚ) < 1)]
      rfl
    have hcs : check_and_sell_positions cenvC9bad (5/100) =
        some (0, [Event.ledgerWrite 0]) := by
      rw [show check_and_sell_positions cenvC9bad (5/100) =
        some (round2 0, [Event.ledgerWrite (round2 0)]) from rfl]
      rw [round2_zero]
    rw [mainRun]
    rw [show cenvC9bad.buying_power = some 1000 from rfl]
    dsimp only
    rw [hcs]
    dsimp only
    rw [show get_toppicks_with_signal cenvC9bad.screener_rows = some [⟨"ABC", none⟩] from rfl]
    dsimp only
    rw [acquisitionLoop, hstep]
    rfl
  · have hstep : acqStep cenvC9ok 1000 ⟨"ABC", none⟩ =
        some [Event.submitOrder "ABC" "buy" 50,
              Event.logAttempt ⟨"ABC", "buy", some 50, none, some "bid", true, ""⟩] := by
      rw [acqStep]
      rw [if_neg (by simp [DIVIDEND_SYMBOL] :
        ¬ (Pick.ticker ⟨"ABC", none⟩ = "" ∨ Pick.ticker ⟨"ABC", none⟩ = DIVIDEND_SYMBOL))]
      rw [if_neg (by norm_num : ¬ (1000:ℚ) = 0)]
      dsimp only
      rw [hn]
      rw [if_neg (by norm_num : ¬ (50:ℚ) < 1)]
      rw [show cenvC9ok.get_position "ABC" = none from rfl]
      rw [acqSubmitPhase]
      rw [show has_open_buy_order cenvC9ok "ABC" = some false from rfl]
      rfl
    have hcs : check_and_sell_positions cenvC9ok (5/100) =
        some (0, [Event.ledgerWrite 0]) := by
      rw [show check_and_sell_positions cenvC9ok (5/100) =
        some (round2 0, [Event.ledgerWrite (round2 0)]) from rfl]
      rw [round2_zero]
    rw [mainRun]
    rw [show cenvC9ok.buying_power = some 1000 from rfl]
    dsimp only
    rw [hcs]
    dsimp only
    rw [show get_toppicks_with_signal cenvC9ok.screener_rows = some [⟨"ABC", none⟩] from rfl]
    dsimp only
    rw [acquisitionLoop, hstep]
    dsimp only
    rw [acquisitionLoop]
    rfl

/-- Every submission fails and every position lookup raises, but all
open-order lookups answer: the run must still complete. -/
def wenvC9 : Env :=
  { list_positions := some [⟨"XYZ", 1, 100, 106⟩]
    list_orders := fun _ => some []
    get_position := fun _ => none
    submit_sell := fun _ _ => ⟨none, false, "down"⟩
    submit_buy := fun _ _ => ⟨none, false, "down"⟩
    buying_power := some 1000
    ledger_rows := []
    screener_rows := [["TopPick", "Bullish Signal", "Ticker", "Price"], ["TOP", "✅", "NEW", ""]] }

theorem claim_C9_witness : (mainRun wenvC9).isSome = true :=
  claim_C9_amended wenvC9 [⟨"XYZ", 1, 100, 106⟩] 1000 rfl (fun _ => rfl) rfl
    (List.cons_ne_nil _ _)

/-- A run that does nothing, for exercising the ledger-write format. -/
def wenvC10 : Env :=
  { list_positions := some []
    list_orders := fun _ => some []
    get_position := fun _ => none
    submit_sell := fun _ _ => ⟨some "sid", true, ""⟩
    submit_buy := fun _ _ => ⟨some "bid", true, ""⟩
    buying_power := some 1000
    ledger_rows := []
    screener_rows := [["x"]] }

theorem claim_C10_witness :
    (ledgerWrites [Event.ledgerWrite 0]).all twoDecimal = true := by
  have h : mainRun wenvC10 = some (0, [Event.ledgerWrite 0]) := by
    rw [show mainRun wenvC10 = some (round2 0, [Event.ledgerWrite (round2 0)]) from rfl]
    rw [round2_zero]
  exact claim_C10 wenvC10 0 [Event.ledgerWrite 0] h

end TradingBot
